import Mathlib

/-!
# Signal engine of `server/stratagy.js`

A shallow embedding of the indicator library (`calculateSMA`, `calculateTRArray`,
`calculateATRFromTR`, `calculateSupertrend`), the risk sizer (`applySlippage`,
`positionSize`) and the signal evaluator (`analyzeStock`), followed by theorems
about them.

Modelling conventions.

* A JavaScript number is a rational (`ℚ`): arithmetic on finite values is exact, rounding
  of doubles is not modelled, and the decimal literals of the source (`0.0007`, `1.5`, ...)
  denote the corresponding fractions.
* `null` in an array of numbers is `none`; a slot that may also be `undefined` is a `JSVal`.
* A `for (let i = 0; i < a.length; i++)` loop that only pushes a value computed from `i`
  is a `map` over `List.range a.length`; a loop that carries variables from one iteration
  to the next is a function giving the loop variables after `k` iterations.
* The periods are natural numbers.  With `period = 0` the source divides by zero
  (`NaN`), which has no counterpart here: every theorem assumes `1 ≤ period`, and the only
  call sites pass `50` and `10`.
-/

namespace Stratagy

/-! ## Data model -/

/-- One OHLC bar: the object built by `executeAnalysis` from a raw row. -/
structure Bar where
  open_ : ℚ
  high : ℚ
  low : ℚ
  close : ℚ
deriving DecidableEq

/-- A slot holding a value, `null` or `undefined`. -/
inductive JSVal (α : Type) where
  | val (a : α)
  | null
  | undefined
deriving DecidableEq

/-- The direction strings `'up'` and `'down'`. -/
inductive Dir where
  | up
  | down
deriving DecidableEq

/-- One element of the array returned by `calculateSupertrend`:
`{ supertrend, direction, atr, upper, lower }`. -/
structure SuperState where
  supertrend : JSVal ℚ
  direction : JSVal Dir
  atr : Option ℚ
  upper : Option ℚ
  lower : Option ℚ
deriving DecidableEq

/-- The fields of a `BUY_PENDING` / `SELL_PENDING` result of `analyzeStock`. -/
structure Trade where
  trend : String
  signal : String
  entryPrice : ℚ
  stopLoss : ℚ
  takeProfit : ℚ
  quantity : ℤ
  commission : ℚ
  atr : ℚ
deriving DecidableEq

/-- What `analyzeStock` returns: `{ signal: "NO_DATA" }`,
`{ trend: 'RANGE', signal: 'NO_TRADE' }`, or a trade record. -/
inductive Result where
  | noData
  | noTrade
  | trade (t : Trade)
deriving DecidableEq

/-- The `signal` field of a result. -/
def Result.signal : Result → String
  | .noData => "NO_DATA"
  | .noTrade => "NO_TRADE"
  | .trade t => t.signal

/-- The `trend` field of a result (`{ signal: "NO_DATA" }` has none). -/
def Result.trend : Result → Option String
  | .noData => none
  | .noTrade => some "RANGE"
  | .trade t => some t.trend

/-! ## Constants -/

def COMMISSION_PER_TRADE : ℚ := 5 / 10000
def SLIPPAGE_PCT : ℚ := 7 / 10000
def ACCOUNT_SIZE : ℚ := 100000
def RISK_PER_TRADE_PCT : ℚ := 5 / 1000
def SUPER_ATR_PERIOD : ℕ := 10
def SUPER_MULTIPLIER : ℚ := 3

/-! ## Helper functions -/

/-- The element `df[i]` of a bar array, for an index inside the array (every read of the
source is; outside it the source would throw). -/
def bar (df : List Bar) (i : ℕ) : Bar :=
  df.getD i ⟨0, 0, 0, 0⟩

/-- The element `xs[i]` of an array of numbers, for an index inside the array. -/
def num (xs : List ℚ) (i : ℕ) : ℚ :=
  xs.getD i 0

/-- The call `xs.slice(start, stop)` for `0 ≤ start`. -/
def arraySlice (xs : List ℚ) (start stop : ℕ) : List ℚ :=
  (xs.take stop).drop start

/-- Source lines 18-30.  The test `i < period - 1` is on integers; in the other branch
`i - period + 1` is not negative when `1 ≤ period`. -/
def calculateSMA (data : List ℚ) (period : ℕ) : List (Option ℚ) :=
  (List.range data.length).map fun (i : ℕ) =>
    if (i : ℤ) < (period : ℤ) - 1 then none
    else
      let slice := arraySlice data (i + 1 - period) (i + 1)
      let avg := slice.foldl (fun sum val => sum + val) 0 / (period : ℚ)
      some avg

/-- Source lines 32-45.  `Math.max(a, b, c)` is `max a (max b c)`. -/
def calculateTRArray (df : List Bar) : List ℚ :=
  (List.range df.length).map fun (i : ℕ) =>
    let prevClose := if 0 < i then (bar df (i - 1)).close else (bar df i).close
    max ((bar df i).high - (bar df i).low)
      (max |(bar df i).high - prevClose| |(bar df i).low - prevClose|)

/-- One iteration (index `i`) of the loop of `calculateATRFromTR`, on the pair
`(atr, seedSum)`.  An assignment `atr[i] = v` at `i = atr.length` appends.  The read
`atr[i - 1]` yields a number whenever `1 ≤ period`; the last alternative is reached
only with `period = 0`. -/
def atrBody (tr : List ℚ) (period : ℕ) (i : ℕ) (st : List (Option ℚ) × ℚ) :
    List (Option ℚ) × ℚ :=
  if i < period then
    let seedSum := st.2 + num tr i
    let atr := st.1 ++ [none]
    if (i : ℤ) = (period : ℤ) - 1 then (atr.set i (some (seedSum / (period : ℚ))), seedSum)
    else (atr, seedSum)
  else
    match st.1.getD (i - 1) none with
    | some prevATR =>
      (st.1 ++ [some ((prevATR * ((period : ℚ) - 1) + num tr i) / (period : ℚ))], st.2)
    | none => (st.1 ++ [none], st.2)

/-- The variables `(atr, seedSum)` of `calculateATRFromTR` after `k` iterations. -/
def atrLoop (tr : List ℚ) (period : ℕ) : ℕ → List (Option ℚ) × ℚ
  | 0 => ([], 0)
  | k + 1 => atrBody tr period k (atrLoop tr period k)

/-- Source lines 47-63. -/
def calculateATRFromTR (tr : List ℚ) (period : ℕ) : List (Option ℚ) :=
  (atrLoop tr period tr.length).1

/-- The sides `"BUY"` and `"SELL"` passed to `applySlippage`. -/
inductive Side where
  | BUY
  | SELL
deriving DecidableEq

/-- Source lines 65-68. -/
def applySlippage (price : ℚ) (side : Side) : ℚ :=
  let slip := price * SLIPPAGE_PCT
  if side = Side.BUY then price + slip else price - slip

/-- Source lines 70-75.  `!riskPerShare` holds exactly at `0`; a rational is always finite. -/
def positionSize (entryPrice stopLossPrice : ℚ) : ℤ :=
  let riskPerShare := |entryPrice - stopLossPrice|
  if riskPerShare = 0 then 0
  else
    let riskAmount := ACCOUNT_SIZE * RISK_PER_TRADE_PCT
    max 0 ⌊riskAmount / riskPerShare⌋

/-! ## Supertrend -/

/-- The variables of the loop of `calculateSupertrend`. -/
structure Carry where
  final : List SuperState
  prevFinalUpper : Option ℚ
  prevFinalLower : Option ℚ
  prevSupertrend : JSVal ℚ
  prevDirection : JSVal Dir
deriving DecidableEq

/-- The state pushed where `!atrVal` holds. -/
def nullState : SuperState :=
  { supertrend := .null, direction := .null, atr := none, upper := none, lower := none }

/-- Source lines 130-132: the final upper band at index `i`. -/
def finalUpperAt (df : List Bar) (i : ℕ) (basicUpper : ℚ) (prevFinalUpper : Option ℚ) : ℚ :=
  match prevFinalUpper with
  | none => basicUpper
  | some prevFinalUpper =>
    if basicUpper < prevFinalUpper ∨ (bar df (i - 1)).close > prevFinalUpper then basicUpper
    else prevFinalUpper

/-- Source lines 133-135: the final lower band at index `i`. -/
def finalLowerAt (df : List Bar) (i : ℕ) (basicLower : ℚ) (prevFinalLower : Option ℚ) : ℚ :=
  match prevFinalLower with
  | none => basicLower
  | some prevFinalLower =>
    if basicLower > prevFinalLower ∨ (bar df (i - 1)).close < prevFinalLower then basicLower
    else prevFinalLower

/-- Source lines 138-166: the pair `(direction, supertrendValue)` at index `i`.  In the
last branch the source assigns neither variable, so both stay `undefined`. -/
def directionAt (df : List Bar) (i : ℕ) (hl2 finalUpper finalLower : ℚ)
    (prevSupertrend : JSVal ℚ) (prevDirection : JSVal Dir) : JSVal Dir × JSVal ℚ :=
  if prevSupertrend = .null then
    let direction := if (bar df i).close > hl2 then Dir.up else Dir.down
    (.val direction, .val (if direction = Dir.up then finalLower else finalUpper))
  else if prevDirection = .val Dir.up then
    if (bar df (i - 1)).close ≤ finalUpper then (.val Dir.down, .val finalUpper)
    else (.val Dir.up, .val finalLower)
  else
    if (bar df (i - 1)).close ≥ finalLower then (.val Dir.down, .val finalUpper)
    else (.undefined, .undefined)

/-- One iteration (index `i`) of the loop of `calculateSupertrend` (source lines 114-181).
`!atrVal` holds when `atr[i]` is `null` or `0`. -/
def superBody (df : List Bar) (atr : List (Option ℚ)) (multiplier : ℚ) (i : ℕ) (c : Carry) :
    Carry :=
  let hl2 := ((bar df i).high + (bar df i).low) / 2
  match atr.getD i none with
  | none => { c with final := c.final ++ [nullState] }
  | some atrVal =>
    if atrVal = 0 then { c with final := c.final ++ [nullState] }
    else
      let basicUpper := hl2 + multiplier * atrVal
      let basicLower := hl2 - multiplier * atrVal
      let finalUpper := finalUpperAt df i basicUpper c.prevFinalUpper
      let finalLower := finalLowerAt df i basicLower c.prevFinalLower
      let ds := directionAt df i hl2 finalUpper finalLower c.prevSupertrend c.prevDirection
      { final := c.final ++ [{ supertrend := ds.2, direction := ds.1, atr := some atrVal,
                               upper := some finalUpper, lower := some finalLower }]
        prevFinalUpper := some finalUpper
        prevFinalLower := some finalLower
        prevSupertrend := ds.2
        prevDirection := ds.1 }

/-- The loop variables of `calculateSupertrend` after `k` iterations. -/
def superLoop (df : List Bar) (atr : List (Option ℚ)) (multiplier : ℚ) : ℕ → Carry
  | 0 => { final := [], prevFinalUpper := none, prevFinalLower := none,
           prevSupertrend := .null, prevDirection := .null }
  | k + 1 => superBody df atr multiplier k (superLoop df atr multiplier k)

/-- Source lines 101-184. -/
def calculateSupertrend (df : List Bar) (atrPeriod : ℕ) (multiplier : ℚ) : List SuperState :=
  if df.length = 0 then []
  else
    let tr := calculateTRArray df
    let atr := calculateATRFromTR tr atrPeriod
    (superLoop df atr multiplier df.length).final

/-! ## Strategy logic -/

/-- Source lines 207-267 of `analyzeStock`: the decision once `last`, `lastSuper`,
`prevSuper` and `sma50` are at hand.  `sma50` is `none` when `smaFilter[n]` is
`undefined`; a comparison with `undefined` is false. -/
def evaluate (last : Bar) (lastSuper prevSuper : SuperState) (sma50 : Option ℚ) : Result :=
  let flippedToUp := prevSuper.direction = .val Dir.down ∧ lastSuper.direction = .val Dir.up
  let flippedToDown := prevSuper.direction = .val Dir.up ∧ lastSuper.direction = .val Dir.down
  let gt := match sma50 with | some s => decide (last.close > s) | none => false
  let lt := match sma50 with | some s => decide (last.close < s) | none => false
  let atrVal := lastSuper.atr.getD 0
  if flippedToUp ∧ gt = true then
    let entry := applySlippage last.close Side.BUY
    let stopLoss :=
      match lastSuper.supertrend with
      | .val s => if s = 0 ∨ s ≥ entry then entry - 3 / 2 * atrVal else s
      | _ => entry - 3 / 2 * atrVal
    let takeProfit := entry + 3 * atrVal
    let qty := positionSize entry stopLoss
    let commission := entry * (qty : ℚ) * COMMISSION_PER_TRADE
    .trade { trend := "UP", signal := "BUY_PENDING", entryPrice := entry, stopLoss := stopLoss,
             takeProfit := takeProfit, quantity := qty, commission := commission, atr := atrVal }
  else if flippedToDown ∧ lt = true then
    let entry := applySlippage last.close Side.SELL
    let stopLoss :=
      match lastSuper.supertrend with
      | .val s => if s = 0 ∨ s ≤ entry then entry + 3 / 2 * atrVal else s
      | _ => entry + 3 / 2 * atrVal
    let takeProfit := entry - 3 * atrVal
    let qty := positionSize entry stopLoss
    let commission := entry * (qty : ℚ) * COMMISSION_PER_TRADE
    .trade { trend := "DOWN", signal := "SELL_PENDING", entryPrice := entry, stopLoss := stopLoss,
             takeProfit := takeProfit, quantity := qty, commission := commission, atr := atrVal }
  else .noTrade

/-- Source lines 188-268.  `superArr[k]` and `smaFilter[k]` are `undefined` outside the
array; an element of `superArr` is an object, hence truthy. -/
def analyzeStock (df : List Bar) : Result :=
  let closes := df.map fun c => c.close
  let smaFilter := calculateSMA closes 50
  let superArr := calculateSupertrend df SUPER_ATR_PERIOD SUPER_MULTIPLIER
  let n : ℤ := (df.length : ℤ) - 1
  if n < max ((SUPER_ATR_PERIOD : ℤ) + 2) 50 then .noData
  else
    match superArr[n.toNat]?, superArr[n.toNat - 1]? with
    | some lastSuper, some prevSuper =>
      match smaFilter[n.toNat]? with
      | some none => .noData
      | some (some sma50) => evaluate (bar df n.toNat) lastSuper prevSuper (some sma50)
      | none => evaluate (bar df n.toNat) lastSuper prevSuper none
    | _, _ => .noData

/-- A bar with the given high, low and close (and open equal to close). -/
def mkBar (high low close : ℚ) : Bar :=
  ⟨close, high, low, close⟩

/-! ## Definitions following the spec's words -/

/-- Arithmetic mean of the `p` values `values[i-p+1..i]`, following the spec's words. -/
def windowMean (values : List ℚ) (p i : ℕ) : ℚ :=
  ((List.range p).map fun j => num values (i + 1 - p + j)).sum / (p : ℚ)

/-! ## What one iteration appends -/

/-- The value that iteration `i` of the loop of `calculateATRFromTR` leaves in `atr[i]`,
read off `atrBody`. -/
def atrEntry (tr : List ℚ) (period : ℕ) (i : ℕ) (st : List (Option ℚ) × ℚ) : Option ℚ :=
  if i < period then
    if (i : ℤ) = (period : ℤ) - 1 then some ((st.2 + num tr i) / (period : ℚ)) else none
  else
    match st.1.getD (i - 1) none with
    | some prevATR => some ((prevATR * ((period : ℚ) - 1) + num tr i) / (period : ℚ))
    | none => none

/-- The state that iteration `i` of the loop of `calculateSupertrend` pushes, read off
`superBody`. -/
def superEntry (df : List Bar) (atr : List (Option ℚ)) (multiplier : ℚ) (i : ℕ) (c : Carry) :
    SuperState :=
  let hl2 := ((bar df i).high + (bar df i).low) / 2
  match atr.getD i none with
  | none => nullState
  | some atrVal =>
    if atrVal = 0 then nullState
    else
      let basicUpper := hl2 + multiplier * atrVal
      let basicLower := hl2 - multiplier * atrVal
      let finalUpper := finalUpperAt df i basicUpper c.prevFinalUpper
      let finalLower := finalLowerAt df i basicLower c.prevFinalLower
      let ds := directionAt df i hl2 finalUpper finalLower c.prevSupertrend c.prevDirection
      { supertrend := ds.2, direction := ds.1, atr := some atrVal,
        upper := some finalUpper, lower := some finalLower }

/-! ## Sample series -/

/-- Sample series: eleven equal bars `high = 2, low = 0, close = 1`. -/
def elevenBars : List Bar :=
  List.replicate 11 (mkBar 2 0 1)

/-- Sample series: sixty equal bars `high = low = close = 100`. -/
def sixtyFlatBars : List Bar :=
  List.replicate 60 (mkBar 100 100 100)

/-- Sample series of 51 bars: 49 flat bars at 100, a bar closing at its high, then a wide
bar closing at its low. -/
def sellSeries : List Bar :=
  List.replicate 49 (mkBar 100 100 100) ++ [mkBar 102 100 102, mkBar 110 90 90]

/-- Sample series of 51 bars: 49 flat bars at 100, a bar closing at its midpoint, then a
bar closing at its high. -/
def riseSeries : List Bar :=
  List.replicate 49 (mkBar 100 100 100) ++ [mkBar 102 98 100, mkBar 104 100 104]

/-! ## Names for what `calculateSupertrend` computes on the way -/

/-- The array `atr` that `calculateSupertrend` computes from `df` (source lines 105-106). -/
def atrOf (df : List Bar) (atrPeriod : ℕ) : List (Option ℚ) :=
  calculateATRFromTR (calculateTRArray df) atrPeriod

/-- The loop variables of `calculateSupertrend` on entry to iteration `i`. -/
def carryAt (df : List Bar) (atrPeriod : ℕ) (multiplier : ℚ) (i : ℕ) : Carry :=
  superLoop df (atrOf df atrPeriod) multiplier i

/-! ## More sample series -/

/-- Sample series of 51 bars with negative prices, all of them whole numbers: 49 flat bars
at `-20`, a bar from `-20` up to a close of `0`, then a wide bar closing at its low `-71`.
The final upper band at the last index is exactly `0`. -/
def zeroStopSeries : List Bar :=
  List.replicate 49 (mkBar (-20) (-20) (-20)) ++ [mkBar 0 (-20) 0, mkBar 11 (-71) (-71)]

/-- Sample series of 11 bars: ten equal bars `high = 2, low = 0, close = 1`, then a bar far
above them. -/
def jumpSeries : List Bar :=
  List.replicate 10 (mkBar 2 0 1) ++ [mkBar 102 100 101]

/-! ## Building the bar series (`executeAnalysis`) -/

/-- The object that the `map` of `executeAnalysis` (source lines 311-316) builds from a raw
row: each field is the result of `parseFloat` on the row's field, `none` standing for a
result that is not a finite number (`NaN`, `Infinity`). -/
structure ParsedRow where
  open_ : Option ℚ
  high : Option ℚ
  low : Option ℚ
  close : Option ℚ
deriving DecidableEq

/-- The predicate of the `filter` of `executeAnalysis` (source line 316);
`Number.isFinite(x)` holds exactly when `x` is a finite number. -/
def keepRow (r : ParsedRow) : Bool :=
  r.close.isSome && r.high.isSome && r.low.isSome

/-- The series `df` that `executeAnalysis` builds, from the rows as parsed by the `map`. -/
def buildSeries (rows : List ParsedRow) : List ParsedRow :=
  rows.filter keepRow

/-- All four prices of a parsed row are finite numbers. -/
def allFinite (r : ParsedRow) : Prop :=
  r.open_.isSome = true ∧ r.high.isSome = true ∧ r.low.isSome = true ∧ r.close.isSome = true

/-! ## The alert filter (`checkNotify.js`) -/

/-- The code of the upper-case form of `c`, as the `i` flag compares characters: only
`a`-`z` fold onto an ASCII letter. -/
def upperCode (c : Char) : ℕ :=
  if 97 ≤ c.toNat ∧ c.toNat ≤ 122 then c.toNat - 32 else c.toNat

/-- The class `\w` of a regular expression without the `u` flag: `0-9`, `A-Z`, `_`, `a-z`. -/
def isWordChar (c : Char) : Bool :=
  decide ((48 ≤ c.toNat ∧ c.toNat ≤ 57) ∨ (65 ≤ c.toNat ∧ c.toNat ≤ 90) ∨ c.toNat = 95 ∨
    (97 ≤ c.toNat ∧ c.toNat ≤ 122))

/-- Whether the character next to a position is a word character; there is none at either
end of the input. -/
def isWord : Option Char → Bool
  | some c => isWordChar c
  | none => false

/-- The assertion `\b` at a position, given the characters before and after it. -/
def wordBoundary (before after : Option Char) : Bool :=
  isWord before != isWord after

/-- Matching the letters of `word` (upper-case) one by one from the head of the input,
ignoring case.  Returns the last character consumed (`prev` if none) and the rest. -/
def matchLiteral : List Char → Option Char → List Char → Option (Option Char × List Char)
  | [], prev, rest => some (prev, rest)
  | _ :: _, _, [] => none
  | w :: ws, _, c :: rest =>
    if upperCode c = w.toNat then matchLiteral ws (some c) rest else none

/-- Matching `word\b` from the head of the input. -/
def matchWord (word : List Char) (prev : Option Char) (cs : List Char) : Bool :=
  match matchLiteral word prev cs with
  | some (last, rest) => wordBoundary last rest.head?
  | none => false

/-- Matching the whole pattern `\b(BUY|SELL)\b` at the current position, `prev` being the
character before it. -/
def matchHere (prev : Option Char) (cs : List Char) : Bool :=
  wordBoundary prev cs.head? &&
    (matchWord ['B', 'U', 'Y'] prev cs || matchWord ['S', 'E', 'L', 'L'] prev cs)

/-- The search of `test`: the pattern is tried at every position from left to right. -/
def regexTestFrom : Option Char → List Char → Bool
  | prev, [] => matchHere prev []
  | prev, c :: rest => matchHere prev (c :: rest) || regexTestFrom (some c) rest

/-- The call `/\b(BUY|SELL)\b/i.test(signal)` of `checkNotify.js`, line 28. -/
def regexTest (signal : String) : Bool :=
  regexTestFrom none signal.toList

/-- The predicate of the filter of `checkAndNotify` on a record `r` whose `signal` is a
string: `r` is truthy, and `r.signal` is truthy unless it is the empty string. -/
def selects (signal : String) : Bool :=
  decide (signal ≠ "") && regexTest signal

/-- The letters of `word` occur in `s`, ignoring case, as a substring. -/
def occursIgnoreCase (word : List Char) (s : List Char) : Prop :=
  ∃ pre mid post, s = pre ++ mid ++ post ∧ mid.map upperCode = word.map Char.toNat

/-- The letters of `word` occur in `s`, ignoring case, as a whole word: the occurrence is
neither preceded nor followed by a letter, a digit or an underscore. -/
def occursAsWord (word : List Char) (s : List Char) : Prop :=
  ∃ pre mid post, s = pre ++ mid ++ post ∧ mid.map upperCode = word.map Char.toNat ∧
    isWord pre.getLast? = false ∧ isWord post.head? = false

/-- Sample series of 51 bars: 49 flat bars at 100, a bar closing at its high `102`, then a
flat bar back at 100. -/
def dipSeries : List Bar :=
  List.replicate 49 (mkBar 100 100 100) ++ [mkBar 102 100 102, mkBar 100 100 100]

/-! ## Indicator library -/

/-- The `reduce` of `calculateSMA` is the sum of the slice. -/
theorem foldl_add_eq_sum (l : List ℚ) (a : ℚ) :
    l.foldl (fun sum val => sum + val) a = a + l.sum := by
  induction l generalizing a with
  | nil => simp
  | cons x xs ih => simp [List.foldl_cons, ih, add_assoc]

/-- A slice inside the array lists the elements at its indices. -/
theorem arraySlice_eq_map (xs : List ℚ) (s p : ℕ) (h : s + p ≤ xs.length) :
    arraySlice xs s (s + p) = (List.range p).map fun j => num xs (s + j) := by
  apply List.ext_getElem?
  intro j
  simp only [arraySlice, num, List.getElem?_drop, List.getElem?_take, List.getElem?_map]
  by_cases hj : j < p
  · have h1 : s + j < s + p := by omega
    have h2 : s + j < xs.length := by omega
    simp [hj, h1, h2, List.getElem?_range, List.getD_eq_getElem?_getD]
  · have h1 : ¬ s + j < s + p := by omega
    have h3 : (List.range p)[j]? = none := by
      apply List.getElem?_eq_none; simp; omega
    simp [h1, h3]

/-- Entry `i` of `calculateSMA`, as the loop body computes it. -/
theorem calculateSMA_getElem? (data : List ℚ) (p i : ℕ) (hi : i < data.length) :
    (calculateSMA data p)[i]? = some (if (i : ℤ) < (p : ℤ) - 1 then none
      else some ((arraySlice data (i + 1 - p) (i + 1)).foldl (fun sum val => sum + val) 0
        / (p : ℚ))) := by
  simp [calculateSMA, List.getElem?_map, List.getElem?_range, hi]

/-- C1. For every list `values` and period `p ≥ 1`, `calculateSMA values p` is as long as
`values`, is `null` at every index `i < p - 1`, and at every index `i ≥ p - 1` holds the
arithmetic mean of `values[i-p+1..i]`.  (At `p = 0` the source yields `NaN`, which is
outside the model; hence the hypothesis.) -/
theorem calculateSMA_spec (values : List ℚ) (p : ℕ) (hp : 1 ≤ p) :
    (calculateSMA values p).length = values.length ∧
    (∀ i, i < values.length → i + 1 < p → (calculateSMA values p)[i]? = some none) ∧
    (∀ i, i < values.length → p ≤ i + 1 →
      (calculateSMA values p)[i]? = some (some (windowMean values p i))) := by
  refine ⟨by simp [calculateSMA], ?_, ?_⟩
  · intro i hi hlt
    have h : (i : ℤ) < (p : ℤ) - 1 := by omega
    rw [calculateSMA_getElem? values p i hi, if_pos h]
  · intro i hi hge
    have h : ¬ (i : ℤ) < (p : ℤ) - 1 := by omega
    have hs : i + 1 = (i + 1 - p) + p := by omega
    rw [calculateSMA_getElem? values p i hi, if_neg h]
    have hsl : arraySlice values (i + 1 - p) (i + 1)
        = (List.range p).map fun j => num values (i + 1 - p + j) := by
      conv_lhs => rw [hs]
      have := arraySlice_eq_map values (i + 1 - p) p (by omega)
      simpa using this
    rw [hsl, foldl_add_eq_sum, zero_add]
    rfl

/-- Witness of C1 on the spec's example `values = [1,2,3,4,5]`, `p = 3`. -/
theorem calculateSMA_spec_witness :
    calculateSMA [1, 2, 3, 4, 5] 3 = [none, none, some 2, some 3, some 4] ∧
    ((calculateSMA [1, 2, 3, 4, 5] 3).length = ([1, 2, 3, 4, 5] : List ℚ).length ∧
    (∀ i, i < ([1, 2, 3, 4, 5] : List ℚ).length → i + 1 < 3 →
      (calculateSMA [1, 2, 3, 4, 5] 3)[i]? = some none) ∧
    (∀ i, i < ([1, 2, 3, 4, 5] : List ℚ).length → 3 ≤ i + 1 →
      (calculateSMA [1, 2, 3, 4, 5] 3)[i]? = some (some (windowMean [1, 2, 3, 4, 5] 3 i)))) :=
  ⟨by decide!, calculateSMA_spec [1, 2, 3, 4, 5] 3 (by decide)⟩

/-- One iteration of the ATR loop appends exactly one entry. -/
theorem atrBody_fst (tr : List ℚ) (p i : ℕ) (st : List (Option ℚ) × ℚ)
    (h : st.1.length = i) :
    (atrBody tr p i st).1 = st.1 ++ [atrEntry tr p i st] := by
  unfold atrBody atrEntry
  by_cases h1 : i < p
  · by_cases h2 : (i : ℤ) = (p : ℤ) - 1
    · simp only [h1, h2, if_true]
      subst h
      simp
    · simp [h1, h2]
  · simp only [h1, if_false]
    cases st.1.getD (i - 1) none <;> rfl

/-- The running sum grows only while `i < period`. -/
theorem atrBody_snd (tr : List ℚ) (p i : ℕ) (st : List (Option ℚ) × ℚ) :
    (atrBody tr p i st).2 = if i < p then st.2 + num tr i else st.2 := by
  unfold atrBody
  by_cases h1 : i < p
  · by_cases h2 : (i : ℤ) = (p : ℤ) - 1 <;> simp [h1, h2]
  · simp only [h1, if_false]
    cases st.1.getD (i - 1) none <;> rfl

/-- After `k` iterations the ATR array has `k` entries. -/
theorem atrLoop_length (tr : List ℚ) (p k : ℕ) : (atrLoop tr p k).1.length = k := by
  induction k with
  | zero => rfl
  | succ k ih => rw [atrLoop, atrBody_fst tr p k _ ih]; simp [ih]

/-- Entry `i` of the ATR array is the one written by iteration `i`, whatever follows. -/
theorem atrLoop_getElem? (tr : List ℚ) (p k i : ℕ) (h : i < k) :
    (atrLoop tr p k).1[i]? = some (atrEntry tr p i (atrLoop tr p i)) := by
  induction k with
  | zero => omega
  | succ k ih =>
    rw [atrLoop, atrBody_fst tr p k _ (atrLoop_length tr p k)]
    by_cases hik : i < k
    · rw [List.getElem?_append_left (by rw [atrLoop_length]; exact hik)]
      exact ih hik
    · have : i = k := by omega
      subst this
      rw [List.getElem?_append_right (by rw [atrLoop_length])]
      simp [atrLoop_length]

/-- While seeding, `seedSum` is the sum of the True Range values read so far. -/
theorem atrLoop_seed (tr : List ℚ) (p k : ℕ) (h : k ≤ p) :
    (atrLoop tr p k).2 = ((List.range k).map fun j => num tr j).sum := by
  induction k with
  | zero => rfl
  | succ k ih =>
    rw [atrLoop, atrBody_snd, if_pos (by omega), ih (by omega), List.range_succ]
    simp

/-- From the seed index on, every ATR entry is a number. -/
theorem atrEntry_isSome (tr : List ℚ) (p : ℕ) (hp : 1 ≤ p) (i : ℕ) (h : p ≤ i + 1) :
    ∃ a, atrEntry tr p i (atrLoop tr p i) = some a := by
  rw [← Option.isSome_iff_exists]
  induction i with
  | zero =>
    have : p = 1 := by omega
    subst this
    unfold atrEntry
    rw [if_pos (by omega), if_pos (by simp)]
    rfl
  | succ i ih =>
    by_cases hs : p = i + 2
    · subst hs
      unfold atrEntry
      rw [if_pos (by omega), if_pos (by push_cast; ring)]
      rfl
    · obtain ⟨a, ha⟩ := Option.isSome_iff_exists.mp (ih (by omega))
      unfold atrEntry
      rw [if_neg (by omega)]
      have hg : (atrLoop tr p (i + 1)).1.getD (i + 1 - 1) none = some a := by
        rw [List.getD_eq_getElem?_getD, Nat.add_sub_cancel,
          atrLoop_getElem? tr p (i + 1) i (by omega), ha]
        rfl
      rw [hg]
      rfl

/-- C2. For every list `tr` and period `p ≥ 1`, `calculateATRFromTR tr p` is as long as
`tr`; it is `null` at every index `i < p - 1`; at index `p - 1` (when it exists) it holds
the arithmetic mean of `tr[0..p-1]`; and at every index `i ≥ p` it holds
`(ATR[i-1] * (p - 1) + tr[i]) / p`. -/
theorem calculateATRFromTR_spec (tr : List ℚ) (p : ℕ) (hp : 1 ≤ p) :
    (calculateATRFromTR tr p).length = tr.length ∧
    (∀ i, i < tr.length → i + 1 < p → (calculateATRFromTR tr p)[i]? = some none) ∧
    (p ≤ tr.length → (calculateATRFromTR tr p)[p - 1]?
      = some (some (((List.range p).map fun j => num tr j).sum / (p : ℚ)))) ∧
    (∀ i, p ≤ i → i < tr.length → ∃ prevATR,
      (calculateATRFromTR tr p)[i - 1]? = some (some prevATR) ∧
      (calculateATRFromTR tr p)[i]?
        = some (some ((prevATR * ((p : ℚ) - 1) + num tr i) / (p : ℚ)))) := by
  unfold calculateATRFromTR
  refine ⟨atrLoop_length tr p _, ?_, ?_, ?_⟩
  · intro i hi hlt
    rw [atrLoop_getElem? tr p _ i hi]
    unfold atrEntry
    rw [if_pos (by omega), if_neg (by omega)]
  · intro hle
    rw [atrLoop_getElem? tr p _ (p - 1) (by omega)]
    unfold atrEntry
    rw [if_pos (by omega), if_pos (by omega), atrLoop_seed tr p (p - 1) (by omega)]
    obtain ⟨q, rfl⟩ : ∃ q, p = q + 1 := ⟨p - 1, by omega⟩
    simp [List.range_succ]
  · intro i hpi hi
    obtain ⟨a, ha⟩ := atrEntry_isSome tr p hp (i - 1) (by omega)
    refine ⟨a, ?_, ?_⟩
    · rw [atrLoop_getElem? tr p _ (i - 1) (by omega), ha]
    · rw [atrLoop_getElem? tr p _ i hi]
      have hg : (atrLoop tr p i).1.getD (i - 1) none = some a := by
        rw [List.getD_eq_getElem?_getD, atrLoop_getElem? tr p i (i - 1) (by omega), ha]
        rfl
      unfold atrEntry
      rw [if_neg (by omega), hg]

/-- Witness of C2 on the spec's example `tr = [2,2,2,2,2]`, `p = 3`. -/
theorem calculateATRFromTR_spec_witness :
    calculateATRFromTR [2, 2, 2, 2, 2] 3 = [none, none, some 2, some 2, some 2] ∧
    (calculateATRFromTR [2, 2, 2, 2, 2] 3).length = ([2, 2, 2, 2, 2] : List ℚ).length ∧
    (calculateATRFromTR [2, 2, 2, 2, 2] 3)[3 - 1]?
      = some (some (((List.range 3).map fun j => num [2, 2, 2, 2, 2] j).sum / ((3 : ℕ) : ℚ))) :=
  ⟨by decide!, (calculateATRFromTR_spec [2, 2, 2, 2, 2] 3 (by decide)).1,
    (calculateATRFromTR_spec [2, 2, 2, 2, 2] 3 (by decide)).2.2.1 (by decide)⟩

/-- Entry `i` of `calculateTRArray`, as the loop body computes it. -/
theorem calculateTRArray_getElem? (df : List Bar) (i : ℕ) (hi : i < df.length) :
    (calculateTRArray df)[i]? = some (max ((bar df i).high - (bar df i).low)
      (max |(bar df i).high - (if 0 < i then (bar df (i - 1)).close else (bar df i).close)|
        |(bar df i).low - (if 0 < i then (bar df (i - 1)).close else (bar df i).close)|)) := by
  simp [calculateTRArray, List.getElem?_map, List.getElem?_range, hi]

/-- C3. `calculateTRArray df` is as long as `df`, and at every index `i > 0` it holds
`max(high[i] - low[i], |high[i] - close[i-1]|, |low[i] - close[i-1]|)`. -/
theorem calculateTRArray_spec (df : List Bar) :
    (calculateTRArray df).length = df.length ∧
    ∀ i, 0 < i → i < df.length →
      (calculateTRArray df)[i]? = some (max ((bar df i).high - (bar df i).low)
        (max |(bar df i).high - (bar df (i - 1)).close|
          |(bar df i).low - (bar df (i - 1)).close|)) := by
  refine ⟨by simp [calculateTRArray], ?_⟩
  intro i h0 hi
  rw [calculateTRArray_getElem? df i hi, if_pos h0]

/-- Witness of C3 on two bars: the gap to the previous close decides entry 1. -/
theorem calculateTRArray_spec_witness :
    calculateTRArray [mkBar 10 8 9, mkBar 14 12 13] = [2, 5] ∧
    (calculateTRArray [mkBar 10 8 9, mkBar 14 12 13])[1]?
      = some (max ((bar [mkBar 10 8 9, mkBar 14 12 13] 1).high
          - (bar [mkBar 10 8 9, mkBar 14 12 13] 1).low)
        (max |(bar [mkBar 10 8 9, mkBar 14 12 13] 1).high
            - (bar [mkBar 10 8 9, mkBar 14 12 13] (1 - 1)).close|
          |(bar [mkBar 10 8 9, mkBar 14 12 13] 1).low
            - (bar [mkBar 10 8 9, mkBar 14 12 13] (1 - 1)).close|)) :=
  ⟨by decide!, (calculateTRArray_spec [mkBar 10 8 9, mkBar 14 12 13]).2 1 (by decide) (by decide)⟩

/-- C4, as stated, fails: on the single bar `high = 10, low = 8, close = 15` entry 0 of
`calculateTRArray` is `7 = |low - close|`, not `high - low = 2`. -/
theorem calculateTRArray_zero_counterexample :
    ¬ ∀ df : List Bar, df ≠ [] →
      (calculateTRArray df)[0]? = some ((bar df 0).high - (bar df 0).low) := by
  intro h
  have h1 := h [mkBar 10 8 15] (by simp)
  revert h1
  decide!

/-- C4, amended. For every non-empty bar series, entry 0 of `calculateTRArray` is
`max(high[0] - low[0], |high[0] - close[0]|, |low[0] - close[0]|)`, which is
`high[0] - low[0]` whenever `low[0] ≤ close[0] ≤ high[0]`. -/
theorem calculateTRArray_zero (df : List Bar) (hne : df ≠ []) :
    (calculateTRArray df)[0]? = some (max ((bar df 0).high - (bar df 0).low)
      (max |(bar df 0).high - (bar df 0).close| |(bar df 0).low - (bar df 0).close|)) ∧
    ((bar df 0).low ≤ (bar df 0).close → (bar df 0).close ≤ (bar df 0).high →
      (calculateTRArray df)[0]? = some ((bar df 0).high - (bar df 0).low)) := by
  have hlen : 0 < df.length := List.length_pos.mpr hne
  have h0 := calculateTRArray_getElem? df 0 hlen
  rw [if_neg (by omega)] at h0
  refine ⟨h0, ?_⟩
  intro hl hh
  rw [h0]
  congr 1
  have e1 : |(bar df 0).high - (bar df 0).close| = (bar df 0).high - (bar df 0).close :=
    abs_of_nonneg (by linarith)
  have e2 : |(bar df 0).low - (bar df 0).close| = (bar df 0).close - (bar df 0).low := by
    rw [abs_of_nonpos (by linarith)]; ring
  rw [e1, e2]
  apply max_eq_left
  apply max_le <;> linarith

/-- Witness of the amended C4 on the bar `high = 10, low = 8, close = 9`. -/
theorem calculateTRArray_zero_witness :
    (calculateTRArray [mkBar 10 8 9])[0]?
      = some ((bar [mkBar 10 8 9] 0).high - (bar [mkBar 10 8 9] 0).low) :=
  (calculateTRArray_zero [mkBar 10 8 9] (by simp)).2 (by decide!) (by decide!)

/-! ## Supertrend -/

/-- One iteration of the Supertrend loop pushes exactly one state. -/
theorem superBody_final (df : List Bar) (atr : List (Option ℚ)) (m : ℚ) (i : ℕ) (c : Carry) :
    (superBody df atr m i c).final = c.final ++ [superEntry df atr m i c] := by
  unfold superBody superEntry
  cases atr.getD i none with
  | none => rfl
  | some a =>
    by_cases h : a = 0
    · simp [h]
    · simp [h]

/-- After `k` iterations the Supertrend array has `k` states. -/
theorem superLoop_length (df : List Bar) (atr : List (Option ℚ)) (m : ℚ) (k : ℕ) :
    (superLoop df atr m k).final.length = k := by
  induction k with
  | zero => rfl
  | succ k ih => rw [superLoop, superBody_final]; simp [ih]

/-- State `i` of the Supertrend array is the one pushed by iteration `i`. -/
theorem superLoop_getElem? (df : List Bar) (atr : List (Option ℚ)) (m : ℚ) (k i : ℕ)
    (h : i < k) :
    (superLoop df atr m k).final[i]? = some (superEntry df atr m i (superLoop df atr m i)) := by
  induction k with
  | zero => omega
  | succ k ih =>
    rw [superLoop, superBody_final]
    by_cases hik : i < k
    · rw [List.getElem?_append_left (by rw [superLoop_length]; exact hik)]
      exact ih hik
    · have : i = k := by omega
      subst this
      rw [List.getElem?_append_right (by rw [superLoop_length])]
      simp [superLoop_length]

/-- `calculateSupertrend` returns one state per bar. -/
theorem calculateSupertrend_length (df : List Bar) (p : ℕ) (m : ℚ) :
    (calculateSupertrend df p m).length = df.length := by
  unfold calculateSupertrend
  by_cases h : df.length = 0
  · simp [h]
  · simp [h, superLoop_length]

/-- C5, evaluated on eleven equal bars `high = 2, low = 0, close = 1` (period 10,
multiplier 3): the state at index 8 is the null state and the state at index 9, the first
computed one, has direction `down`; at
index 10 the previous close `1` is not below the final lower band `-5`; the state at
index 10 has direction `down` again (value `7`, the final upper band), not `up`. -/
theorem calculateSupertrend_elevenBars :
    (calculateSupertrend elevenBars 10 3)[8]? = some nullState ∧
    (calculateSupertrend elevenBars 10 3)[9]?
      = some { supertrend := .val 7, direction := .val Dir.down, atr := some 2,
               upper := some 7, lower := some (-5) } ∧
    (calculateSupertrend elevenBars 10 3)[10]?
      = some { supertrend := .val 7, direction := .val Dir.down, atr := some 2,
               upper := some 7, lower := some (-5) } ∧
    (bar elevenBars 9).close ≥ -5 := by
  decide!

/-! ## Signal evaluator -/

/-- Below the minimum last index `analyzeStock` answers `NO_DATA`. -/
theorem analyzeStock_of_lt (df : List Bar)
    (h : (df.length : ℤ) - 1 < max ((SUPER_ATR_PERIOD : ℤ) + 2) 50) :
    analyzeStock df = Result.noData := by
  unfold analyzeStock
  simp only [if_pos h]

/-- The decision on the last bar never answers `NO_DATA`. -/
theorem evaluate_ne_noData (last : Bar) (lastSuper prevSuper : SuperState) (sma50 : Option ℚ) :
    evaluate last lastSuper prevSuper sma50 ≠ Result.noData := by
  unfold evaluate
  simp only
  split
  · simp
  · split <;> simp

/-- With a last index of at least 50, `analyzeStock` reaches the decision on the last bar,
with the last two Supertrend states and a numeric `smaFilter[n]`. -/
theorem analyzeStock_eq_evaluate (df : List Bar) (h : 50 ≤ (df.length : ℤ) - 1) :
    ∃ lastSuper prevSuper sma50,
      (calculateSupertrend df SUPER_ATR_PERIOD SUPER_MULTIPLIER)[df.length - 1]? = some lastSuper ∧
      (calculateSupertrend df SUPER_ATR_PERIOD SUPER_MULTIPLIER)[df.length - 1 - 1]?
        = some prevSuper ∧
      (calculateSMA (df.map fun c => c.close) 50)[df.length - 1]? = some (some sma50) ∧
      analyzeStock df = evaluate (bar df (df.length - 1)) lastSuper prevSuper (some sma50) := by
  have hlen : 51 ≤ df.length := by omega
  have hn : ((df.length : ℤ) - 1).toNat = df.length - 1 := by omega
  have h1 : df.length - 1 < (calculateSupertrend df SUPER_ATR_PERIOD SUPER_MULTIPLIER).length := by
    rw [calculateSupertrend_length]; omega
  have h2 : df.length - 1 - 1
      < (calculateSupertrend df SUPER_ATR_PERIOD SUPER_MULTIPLIER).length := by
    rw [calculateSupertrend_length]; omega
  have h3 : df.length - 1 < (df.map fun c => c.close).length := by
    rw [List.length_map]; omega
  have hs := calculateSMA_getElem? (df.map fun c => c.close) 50 (df.length - 1) h3
  rw [if_neg (by push_cast; omega)] at hs
  refine ⟨_, _, _, List.getElem?_eq_getElem h1, List.getElem?_eq_getElem h2, hs, ?_⟩
  have hthr : ¬ (df.length : ℤ) - 1 < max ((SUPER_ATR_PERIOD : ℤ) + 2) 50 := by
    simp [SUPER_ATR_PERIOD]; omega
  unfold analyzeStock
  simp only [if_neg hthr, hn, List.getElem?_eq_getElem h1, List.getElem?_eq_getElem h2, hs]

/-- C6. For every bar series whose last index `n = length - 1` is below
`max(SUPER_ATR_PERIOD + 2, 50) = 50` (the empty series included), `analyzeStock` returns
exactly `{ signal: "NO_DATA" }`, whose signal is none of `BUY_PENDING`, `SELL_PENDING`,
`NO_TRADE`. -/
theorem analyzeStock_noData_of_short (df : List Bar)
    (h : (df.length : ℤ) - 1 < max ((SUPER_ATR_PERIOD : ℤ) + 2) 50) :
    max ((SUPER_ATR_PERIOD : ℤ) + 2) 50 = 50 ∧
    analyzeStock df = Result.noData ∧
    (analyzeStock df).signal ≠ "BUY_PENDING" ∧
    (analyzeStock df).signal ≠ "SELL_PENDING" ∧
    (analyzeStock df).signal ≠ "NO_TRADE" := by
  rw [analyzeStock_of_lt df h]
  refine ⟨by decide, rfl, ?_, ?_, ?_⟩ <;> decide

/-- Witness of C6 on the empty series and on 50 flat bars (last index 49). -/
theorem analyzeStock_noData_of_short_witness :
    analyzeStock [] = Result.noData ∧
    analyzeStock (List.replicate 50 (mkBar 100 100 100)) = Result.noData :=
  ⟨(analyzeStock_noData_of_short [] (by decide)).2.1,
    (analyzeStock_noData_of_short (List.replicate 50 (mkBar 100 100 100)) (by decide)).2.1⟩

/-- C7, evaluated on sixty equal bars `high = low = close = 100`: every True Range is 0,
so the ATR is 0 and the Supertrend states at the last two indices are the null state;
`analyzeStock` returns `{ trend: 'RANGE', signal: 'NO_TRADE' }`, not `NO_DATA`. -/
theorem analyzeStock_sixtyFlatBars :
    (50 : ℤ) ≤ (sixtyFlatBars.length : ℤ) - 1 ∧
    (calculateSupertrend sixtyFlatBars SUPER_ATR_PERIOD SUPER_MULTIPLIER)[59]? = some nullState ∧
    (calculateSupertrend sixtyFlatBars SUPER_ATR_PERIOD SUPER_MULTIPLIER)[58]? = some nullState ∧
    analyzeStock sixtyFlatBars = Result.noTrade := by
  decide!

/-- C8, as stated, fails: no series of exactly 50 bars gets past the length guard, whose
test is on the last index `n = length - 1`. -/
theorem min_length_50_counterexample :
    ¬ ((∀ df : List Bar, df.length < 50 → analyzeStock df = Result.noData) ∧
       ∃ df : List Bar, df.length = 50 ∧ analyzeStock df ≠ Result.noData) := by
  rintro ⟨-, df, hlen, hne⟩
  apply hne
  apply analyzeStock_of_lt
  rw [hlen]
  decide

/-- C8, amended. The minimum usable series length for `analyzeStock` is
`max(SUPER_ATR_PERIOD + 2, 50) + 1 = 51` bars: every series with fewer than 51 bars yields
`NO_DATA`, and there is a series of exactly 51 bars for which `analyzeStock` returns a
result other than `NO_DATA`. -/
theorem min_length_51 :
    max ((SUPER_ATR_PERIOD : ℤ) + 2) 50 + 1 = 51 ∧
    (∀ df : List Bar, df.length < 51 → analyzeStock df = Result.noData) ∧
    ∃ df : List Bar, df.length = 51 ∧ analyzeStock df ≠ Result.noData := by
  refine ⟨by decide, ?_, sellSeries, by decide, by decide!⟩
  intro df hlen
  apply analyzeStock_of_lt
  have : max ((SUPER_ATR_PERIOD : ℤ) + 2) 50 = 50 := by decide
  rw [this]
  omega

/-- Witness of the amended C8: 50 flat bars yield `NO_DATA`; the 51 bars of `sellSeries`
do not (they yield `SELL_PENDING`). -/
theorem min_length_51_witness :
    analyzeStock (List.replicate 50 (mkBar 100 100 100)) = Result.noData ∧
    sellSeries.length = 51 ∧ (analyzeStock sellSeries).signal = "SELL_PENDING" :=
  ⟨min_length_51.2.1 (List.replicate 50 (mkBar 100 100 100)) (by decide), by decide,
    by decide!⟩

/-- The decision on the last bar answers `SELL_PENDING` exactly on a flip from `up` to
`down` with the last close below the SMA, and then reports the trend `DOWN`. -/
theorem evaluate_sell_iff (last : Bar) (lastSuper prevSuper : SuperState) (s : ℚ) :
    ((evaluate last lastSuper prevSuper (some s)).signal = "SELL_PENDING" ↔
      prevSuper.direction = .val Dir.up ∧ lastSuper.direction = .val Dir.down ∧ last.close < s) ∧
    ((evaluate last lastSuper prevSuper (some s)).signal = "SELL_PENDING" →
      (evaluate last lastSuper prevSuper (some s)).trend = some "DOWN") := by
  unfold evaluate
  simp only
  by_cases hup : (prevSuper.direction = .val Dir.down ∧ lastSuper.direction = .val Dir.up)
      ∧ decide (last.close > s) = true
  · rw [if_pos hup]
    have hne : prevSuper.direction ≠ .val Dir.up := by rw [hup.1.1]; decide
    simp only [Result.signal, Result.trend]
    refine ⟨⟨fun h => absurd h (by decide), fun h => absurd h.1 hne⟩, fun h => absurd h (by decide)⟩
  · rw [if_neg hup]
    by_cases hdown : (prevSuper.direction = .val Dir.up ∧ lastSuper.direction = .val Dir.down)
        ∧ decide (last.close < s) = true
    · rw [if_pos hdown]
      simp only [Result.signal, Result.trend]
      exact ⟨⟨fun _ => ⟨hdown.1.1, hdown.1.2, of_decide_eq_true hdown.2⟩, fun _ => trivial⟩,
        fun _ => trivial⟩
    · rw [if_neg hdown]
      simp only [Result.signal, Result.trend]
      refine ⟨⟨fun h => absurd h (by decide), fun h => ?_⟩, fun h => absurd h (by decide)⟩
      exact absurd ⟨⟨h.1, h.2.1⟩, decide_eq_true h.2.2⟩ hdown

/-- C9. For every bar series with last index `n ≥ 50`, `analyzeStock` returns the signal
`SELL_PENDING` if and only if the Supertrend direction is `up` at `n - 1` and `down` at
`n` and `close[n] < SMA50[n]`; a `SELL_PENDING` result has trend `DOWN`. -/
theorem analyzeStock_sell_iff (df : List Bar) (h : 50 ≤ (df.length : ℤ) - 1) :
    ((analyzeStock df).signal = "SELL_PENDING" ↔
      ∃ prevSuper lastSuper sma50,
        (calculateSupertrend df SUPER_ATR_PERIOD SUPER_MULTIPLIER)[df.length - 1 - 1]?
          = some prevSuper ∧
        (calculateSupertrend df SUPER_ATR_PERIOD SUPER_MULTIPLIER)[df.length - 1]?
          = some lastSuper ∧
        (calculateSMA (df.map fun c => c.close) 50)[df.length - 1]? = some (some sma50) ∧
        prevSuper.direction = .val Dir.up ∧ lastSuper.direction = .val Dir.down ∧
        (bar df (df.length - 1)).close < sma50) ∧
    ((analyzeStock df).signal = "SELL_PENDING" → (analyzeStock df).trend = some "DOWN") := by
  obtain ⟨l, p, s, hl, hp, hs, he⟩ := analyzeStock_eq_evaluate df h
  rw [he]
  have key := evaluate_sell_iff (bar df (df.length - 1)) l p s
  refine ⟨⟨fun hsig => ⟨p, l, s, hp, hl, hs, key.1.mp hsig⟩, ?_⟩, key.2⟩
  rintro ⟨p', l', s', hp', hl', hs', hd⟩
  rw [hp] at hp'
  rw [hl] at hl'
  rw [hs] at hs'
  cases hp'
  cases hl'
  cases hs'
  exact key.1.mpr hd

/-- Witness of C9 on `sellSeries` (last index 50): the direction is `up` at index 49 and
`down` at index 50, the last close `90` is below `SMA50[50]`, and the signal is
`SELL_PENDING` with trend `DOWN`. -/
theorem analyzeStock_sell_iff_witness :
    (analyzeStock sellSeries).signal = "SELL_PENDING" ∧
    (analyzeStock sellSeries).trend = some "DOWN" ∧
    ∃ prevSuper lastSuper sma50,
      (calculateSupertrend sellSeries SUPER_ATR_PERIOD SUPER_MULTIPLIER)[sellSeries.length - 1 - 1]?
        = some prevSuper ∧
      (calculateSupertrend sellSeries SUPER_ATR_PERIOD SUPER_MULTIPLIER)[sellSeries.length - 1]?
        = some lastSuper ∧
      (calculateSMA (sellSeries.map fun c => c.close) 50)[sellSeries.length - 1]?
        = some (some sma50) ∧
      prevSuper.direction = .val Dir.up ∧ lastSuper.direction = .val Dir.down ∧
      (bar sellSeries (sellSeries.length - 1)).close < sma50 :=
  have hsig : (analyzeStock sellSeries).signal = "SELL_PENDING" := by decide!
  ⟨hsig, (analyzeStock_sell_iff sellSeries (by decide)).2 hsig,
    (analyzeStock_sell_iff sellSeries (by decide)).1.mp hsig⟩

/-- Evaluation on `riseSeries` (last index 50): the state at index 49 has direction
`down`; at index 50 the previous close `100` is not below the final lower band `2493/25`,
the branch the source comments `flip to up`, and the state gets direction `down`; the
last close `104` exceeds `SMA50[50] = 2502/25`; `analyzeStock` returns
`{ trend: 'RANGE', signal: 'NO_TRADE' }`. -/
theorem analyzeStock_riseSeries :
    (50 : ℤ) ≤ (riseSeries.length : ℤ) - 1 ∧
    (calculateSupertrend riseSeries SUPER_ATR_PERIOD SUPER_MULTIPLIER)[49]?
      = some { supertrend := .val (506 / 5), direction := .val Dir.down, atr := some (2 / 5),
               upper := some (506 / 5), lower := some (494 / 5) } ∧
    (calculateSupertrend riseSeries SUPER_ATR_PERIOD SUPER_MULTIPLIER)[50]?
      = some { supertrend := .val (506 / 5), direction := .val Dir.down, atr := some (19 / 25),
               upper := some (506 / 5), lower := some (2493 / 25) } ∧
    (bar riseSeries 49).close ≥ 2493 / 25 ∧
    (calculateSMA (riseSeries.map fun c => c.close) 50)[50]? = some (some (2502 / 25)) ∧
    (bar riseSeries 50).close > 2502 / 25 ∧
    analyzeStock riseSeries = Result.noTrade := by
  decide!

/-- C10. Given Supertrend states with direction `down` at `n - 1` and `up` at `n` and a
last close above `SMA50[n]`, the decision of `analyzeStock` is `BUY_PENDING` (trend `UP`)
with `entryPrice = close[n] * (1 + 0.0007)` and `takeProfit = entryPrice + 3 * atr[n]`;
so for every bar series with last index `n ≥ 50` whose last bar, last two states and
`SMA50[n]` these are, `analyzeStock` returns that result.  (The states are those the
decision is given: the branch is stated on its own inputs, since the direction rule of
`calculateSupertrend` itself produces no `down` followed by `up`.) -/
theorem buy_decision (last : Bar) (lastSuper prevSuper : SuperState) (sma50 : ℚ)
    (hdown : prevSuper.direction = .val Dir.down) (hup : lastSuper.direction = .val Dir.up)
    (hgt : last.close > sma50) :
    ∃ t, evaluate last lastSuper prevSuper (some sma50) = Result.trade t ∧
      t.trend = "UP" ∧ t.signal = "BUY_PENDING" ∧
      t.entryPrice = last.close * (1 + 7 / 10000) ∧
      t.takeProfit = t.entryPrice + 3 * lastSuper.atr.getD 0 ∧
      t.atr = lastSuper.atr.getD 0 ∧
      ∀ df : List Bar, 50 ≤ (df.length : ℤ) - 1 → bar df (df.length - 1) = last →
        (calculateSupertrend df SUPER_ATR_PERIOD SUPER_MULTIPLIER)[df.length - 1]?
          = some lastSuper →
        (calculateSupertrend df SUPER_ATR_PERIOD SUPER_MULTIPLIER)[df.length - 1 - 1]?
          = some prevSuper →
        (calculateSMA (df.map fun c => c.close) 50)[df.length - 1]? = some (some sma50) →
        analyzeStock df = Result.trade t := by
  have hcond : (prevSuper.direction = .val Dir.down ∧ lastSuper.direction = .val Dir.up)
      ∧ decide (last.close > sma50) = true := ⟨⟨hdown, hup⟩, decide_eq_true hgt⟩
  have key : ∃ t, evaluate last lastSuper prevSuper (some sma50) = Result.trade t ∧
      t.trend = "UP" ∧ t.signal = "BUY_PENDING" ∧
      t.entryPrice = last.close * (1 + 7 / 10000) ∧
      t.takeProfit = t.entryPrice + 3 * lastSuper.atr.getD 0 ∧
      t.atr = lastSuper.atr.getD 0 := by
    unfold evaluate
    simp only
    rw [if_pos hcond]
    refine ⟨_, rfl, rfl, rfl, ?_, rfl, rfl⟩
    simp only [applySlippage, SLIPPAGE_PCT]
    rw [if_pos trivial]
    ring
  obtain ⟨t, ht, h1, h2, h3, h4, h5⟩ := key
  refine ⟨t, ht, h1, h2, h3, h4, h5, ?_⟩
  intro df h50 hbar hl hp hs
  obtain ⟨l, q, s, hl2, hp2, hs2, he⟩ := analyzeStock_eq_evaluate df h50
  rw [hl] at hl2
  rw [hp] at hp2
  rw [hs] at hs2
  cases hl2
  cases hp2
  cases hs2
  rw [he, hbar, ht]

/-- Witness of C10 on the last bar `high = 104, low = 100, close = 104` with
`SMA50 = 2502/25`, a previous state of direction `down` and a last state of direction `up`
with value `506/5` and ATR `19/25`: the decision is `BUY_PENDING` with entry
`104 * 1.0007 = 130091/1250`, stop `506/5`, take-profit `entry + 3 * 19/25` and
quantity 174. -/
theorem buy_decision_witness :
    evaluate (mkBar 104 100 104)
        { supertrend := .val (506 / 5), direction := .val Dir.up, atr := some (19 / 25),
          upper := some (506 / 5), lower := some (2493 / 25) }
        { supertrend := .val (506 / 5), direction := .val Dir.down, atr := some (2 / 5),
          upper := some (506 / 5), lower := some (494 / 5) }
        (some (2502 / 25))
      = Result.trade
        { trend := "UP", signal := "BUY_PENDING", entryPrice := 130091 / 1250,
          stopLoss := 506 / 5, takeProfit := 132941 / 1250, quantity := 174,
          commission := 11317917 / 1250000, atr := 19 / 25 } ∧
    ∃ t, evaluate (mkBar 104 100 104)
        { supertrend := .val (506 / 5), direction := .val Dir.up, atr := some (19 / 25),
          upper := some (506 / 5), lower := some (2493 / 25) }
        { supertrend := .val (506 / 5), direction := .val Dir.down, atr := some (2 / 5),
          upper := some (506 / 5), lower := some (494 / 5) }
        (some (2502 / 25)) = Result.trade t ∧
      t.signal = "BUY_PENDING" ∧
      t.entryPrice = (mkBar 104 100 104).close * (1 + 7 / 10000) ∧
      t.takeProfit = t.entryPrice + 3 * (19 / 25) :=
  ⟨by decide!,
    (buy_decision (mkBar 104 100 104)
      { supertrend := .val (506 / 5), direction := .val Dir.up, atr := some (19 / 25),
        upper := some (506 / 5), lower := some (2493 / 25) }
      { supertrend := .val (506 / 5), direction := .val Dir.down, atr := some (2 / 5),
        upper := some (506 / 5), lower := some (494 / 5) }
      (2502 / 25) rfl rfl (by decide!)).imp
      fun _ h => ⟨h.1, h.2.2.1, h.2.2.2.1, h.2.2.2.2.1⟩⟩

/-! ## Trade parameters -/

/-- State `i` of `calculateSupertrend` is what iteration `i` pushes, given the loop
variables on its entry. -/
theorem calculateSupertrend_getElem? (df : List Bar) (p : ℕ) (m : ℚ) (i : ℕ)
    (hi : i < df.length) :
    (calculateSupertrend df p m)[i]?
      = some (superEntry df (atrOf df p) m i (carryAt df p m i)) := by
  unfold calculateSupertrend
  rw [if_neg (by omega)]
  exact superLoop_getElem? df _ m df.length i hi

/-- A pushed state with a non-null `atr` field was computed from that truthy `atr[i]`. -/
theorem superEntry_atr (df : List Bar) (atr : List (Option ℚ)) (m : ℚ) (i : ℕ) (c : Carry)
    (a : ℚ) (h : (superEntry df atr m i c).atr = some a) :
    atr.getD i none = some a ∧ a ≠ 0 := by
  unfold superEntry at h
  cases hg : atr.getD i none with
  | none => rw [hg] at h; simp [nullState] at h
  | some b =>
    rw [hg] at h
    by_cases hb : b = 0
    · simp [hb, nullState] at h
    · simp only [hb, if_false] at h
      cases h
      exact ⟨rfl, hb⟩

/-- The state pushed for a truthy `atr[i]`. -/
theorem superEntry_of_atr (df : List Bar) (atr : List (Option ℚ)) (m : ℚ) (i : ℕ) (c : Carry)
    (a : ℚ) (h : atr.getD i none = some a) (ha : a ≠ 0) :
    superEntry df atr m i c =
      { supertrend := (directionAt df i (((bar df i).high + (bar df i).low) / 2)
          (finalUpperAt df i (((bar df i).high + (bar df i).low) / 2 + m * a) c.prevFinalUpper)
          (finalLowerAt df i (((bar df i).high + (bar df i).low) / 2 - m * a) c.prevFinalLower)
          c.prevSupertrend c.prevDirection).2
        direction := (directionAt df i (((bar df i).high + (bar df i).low) / 2)
          (finalUpperAt df i (((bar df i).high + (bar df i).low) / 2 + m * a) c.prevFinalUpper)
          (finalLowerAt df i (((bar df i).high + (bar df i).low) / 2 - m * a) c.prevFinalLower)
          c.prevSupertrend c.prevDirection).1
        atr := some a
        upper := some (finalUpperAt df i (((bar df i).high + (bar df i).low) / 2 + m * a)
          c.prevFinalUpper)
        lower := some (finalLowerAt df i (((bar df i).high + (bar df i).low) / 2 - m * a)
          c.prevFinalLower) } := by
  unfold superEntry
  rw [h]
  simp only [ha, if_false]

/-- The state pushed for a falsy `atr[i]` is the null state. -/
theorem superEntry_of_not_atr (df : List Bar) (atr : List (Option ℚ)) (m : ℚ) (i : ℕ)
    (c : Carry) (h : (superEntry df atr m i c).atr = none) :
    superEntry df atr m i c = nullState := by
  unfold superEntry at h ⊢
  cases hg : atr.getD i none with
  | none => rfl
  | some b =>
    rw [hg] at h
    by_cases hb : b = 0
    · simp [hb]
    · simp [hb] at h

/-- The direction of a pushed state is a string only where the state was computed. -/
theorem superEntry_atr_of_direction (df : List Bar) (atr : List (Option ℚ)) (m : ℚ) (i : ℕ)
    (c : Carry) (d : Dir) (h : (superEntry df atr m i c).direction = .val d) :
    ∃ a, (superEntry df atr m i c).atr = some a := by
  cases ha : (superEntry df atr m i c).atr with
  | some a => exact ⟨a, rfl⟩
  | none =>
    rw [superEntry_of_not_atr df atr m i c ha] at h
    simp [nullState] at h

/-- A `SELL_PENDING` decision, field by field. -/
theorem evaluate_sell_eq (last : Bar) (lastSuper prevSuper : SuperState) (sma50 : Option ℚ)
    (h : (evaluate last lastSuper prevSuper sma50).signal = "SELL_PENDING") :
    evaluate last lastSuper prevSuper sma50 = Result.trade
      { trend := "DOWN", signal := "SELL_PENDING"
        entryPrice := applySlippage last.close Side.SELL
        stopLoss :=
          match lastSuper.supertrend with
          | .val s =>
            if s = 0 ∨ s ≤ applySlippage last.close Side.SELL
            then applySlippage last.close Side.SELL + 3 / 2 * lastSuper.atr.getD 0 else s
          | _ => applySlippage last.close Side.SELL + 3 / 2 * lastSuper.atr.getD 0
        takeProfit := applySlippage last.close Side.SELL - 3 * lastSuper.atr.getD 0
        quantity := positionSize (applySlippage last.close Side.SELL)
          (match lastSuper.supertrend with
          | .val s =>
            if s = 0 ∨ s ≤ applySlippage last.close Side.SELL
            then applySlippage last.close Side.SELL + 3 / 2 * lastSuper.atr.getD 0 else s
          | _ => applySlippage last.close Side.SELL + 3 / 2 * lastSuper.atr.getD 0)
        commission := applySlippage last.close Side.SELL
          * ((positionSize (applySlippage last.close Side.SELL)
              (match lastSuper.supertrend with
              | .val s =>
                if s = 0 ∨ s ≤ applySlippage last.close Side.SELL
                then applySlippage last.close Side.SELL + 3 / 2 * lastSuper.atr.getD 0 else s
              | _ => applySlippage last.close Side.SELL + 3 / 2 * lastSuper.atr.getD 0) : ℤ) : ℚ)
          * COMMISSION_PER_TRADE
        atr := lastSuper.atr.getD 0 } := by
  unfold evaluate at h ⊢
  simp only at h ⊢
  split
  · rename_i hup
    rw [if_pos hup] at h
    exact absurd h (by simp [Result.signal])
  · rename_i hup
    rw [if_neg hup] at h
    split
    · rfl
    · rename_i hdown
      rw [if_neg hdown] at h
      exact absurd h (by simp [Result.signal])

/-- A decision with signal `SELL_PENDING` comes from a flip from `up` to `down`. -/
theorem evaluate_sell_flip (last : Bar) (lastSuper prevSuper : SuperState) (sma50 : Option ℚ)
    (h : (evaluate last lastSuper prevSuper sma50).signal = "SELL_PENDING") :
    prevSuper.direction = .val Dir.up ∧ lastSuper.direction = .val Dir.down := by
  unfold evaluate at h
  simp only at h
  split at h
  · exact absurd h (by simp [Result.signal])
  · split at h
    · rename_i hdown
      exact hdown.1
    · exact absurd h (by simp [Result.signal])

/-- Whatever `analyzeStock` returns is `NO_DATA` or the decision on the last bar, taken
with the last two Supertrend states. -/
theorem analyzeStock_cases (df : List Bar) :
    analyzeStock df = Result.noData ∨
    ∃ lastSuper prevSuper sma50,
      50 ≤ (df.length : ℤ) - 1 ∧
      (calculateSupertrend df SUPER_ATR_PERIOD SUPER_MULTIPLIER)[df.length - 1]? = some lastSuper ∧
      (calculateSupertrend df SUPER_ATR_PERIOD SUPER_MULTIPLIER)[df.length - 1 - 1]?
        = some prevSuper ∧
      (calculateSMA (df.map fun c => c.close) 50)[df.length - 1]? = some (some sma50) ∧
      analyzeStock df = evaluate (bar df (df.length - 1)) lastSuper prevSuper (some sma50) := by
  by_cases h : (df.length : ℤ) - 1 < max ((SUPER_ATR_PERIOD : ℤ) + 2) 50
  · exact Or.inl (analyzeStock_of_lt df h)
  · have h50 : 50 ≤ (df.length : ℤ) - 1 := by
      have : max ((SUPER_ATR_PERIOD : ℤ) + 2) 50 = 50 := by decide
      rw [this] at h
      omega
    obtain ⟨l, p, s, hl, hp, hs, he⟩ := analyzeStock_eq_evaluate df h50
    exact Or.inr ⟨l, p, s, h50, hl, hp, hs, he⟩

/-- C11. Whenever `analyzeStock` returns `SELL_PENDING`, the result has
`entryPrice = close[n] * (1 - 0.0007)`, `takeProfit = entryPrice - 3 * atr`, and its `atr`
field is the ATR of period 10 at the last index `n`. -/
theorem analyzeStock_sell_prices (df : List Bar)
    (h : (analyzeStock df).signal = "SELL_PENDING") :
    ∃ t, analyzeStock df = Result.trade t ∧
      t.entryPrice = (bar df (df.length - 1)).close * (1 - 7 / 10000) ∧
      t.takeProfit = t.entryPrice - 3 * t.atr ∧
      (atrOf df 10)[df.length - 1]? = some (some t.atr) := by
  rcases analyzeStock_cases df with hno | ⟨l, p, s, h50, hl, -, -, he⟩
  · rw [hno] at h
    exact absurd h (by simp [Result.signal])
  · rw [he] at h
    have hflip := evaluate_sell_flip _ _ _ _ h
    have hrec := evaluate_sell_eq _ _ _ _ h
    rw [calculateSupertrend_getElem? df _ _ _ (by omega)] at hl
    cases hl
    obtain ⟨a, ha⟩ := superEntry_atr_of_direction _ _ _ _ _ _ hflip.2
    have hget := (superEntry_atr _ _ _ _ _ a ha).1
    refine ⟨_, he.trans hrec, ?_, rfl, ?_⟩
    · simp only [applySlippage, SLIPPAGE_PCT]
      rw [if_neg (by decide)]
      ring
    · simp only [ha, Option.getD_some]
      rw [List.getD_eq_getElem?_getD] at hget
      have hget2 : (atrOf df 10)[df.length - 1]?.getD none = some a := hget
      cases hq : (atrOf df 10)[df.length - 1]? with
      | none => rw [hq] at hget2; simp at hget2
      | some v => rw [hq] at hget2; simpa using hget2

/-- Witness of C11 on `sellSeries`: entry `89937/1000`, take-profit `83397/1000`,
ATR `109/50`. -/
theorem analyzeStock_sell_prices_witness :
    ∃ t, analyzeStock sellSeries = Result.trade t ∧
      t.entryPrice = (bar sellSeries (sellSeries.length - 1)).close * (1 - 7 / 10000) ∧
      t.takeProfit = t.entryPrice - 3 * t.atr ∧
      (atrOf sellSeries 10)[sellSeries.length - 1]? = some (some t.atr) :=
  analyzeStock_sell_prices sellSeries (by decide!)

/-- C12, evaluated on `zeroStopSeries` (last index 50, every figure exact in binary
floating point up to the slippage): the direction is `up` at index 49 and `down` at index
50, `analyzeStock` returns `SELL_PENDING` with the negative entry price `-70.9503`; the
Supertrend value at the last index is `0`, which is not null and strictly greater than
the entry price; yet the stop-loss is `entryPrice + 1.5 * atr = -55.9503`, not the
Supertrend value. -/
theorem analyzeStock_zeroStopSeries :
    (50 : ℤ) ≤ (zeroStopSeries.length : ℤ) - 1 ∧
    (calculateSupertrend zeroStopSeries SUPER_ATR_PERIOD SUPER_MULTIPLIER)[49]?
      = some { supertrend := .val (-16), direction := .val Dir.up, atr := some 2,
               upper := some (-4), lower := some (-16) } ∧
    (calculateSupertrend zeroStopSeries SUPER_ATR_PERIOD SUPER_MULTIPLIER)[50]?
      = some { supertrend := .val 0, direction := .val Dir.down, atr := some 10,
               upper := some 0, lower := some (-16) } ∧
    analyzeStock zeroStopSeries = Result.trade
      { trend := "DOWN", signal := "SELL_PENDING", entryPrice := -709503 / 10000,
        stopLoss := -559503 / 10000, takeProfit := -1009503 / 10000, quantity := 33,
        commission := -23413599 / 20000000, atr := 10 } ∧
    (-709503 / 10000 : ℚ) < 0 ∧
    (-559503 / 10000 : ℚ) = -709503 / 10000 + 3 / 2 * 10 := by
  decide!

/-- C13. `positionSize entry stop` is `0` when `entry = stop`; otherwise it is
`floor((100000 * 0.005) / |entry - stop|) = floor(500 / |entry - stop|)`, which is not
negative. -/
theorem positionSize_spec (entry stop : ℚ) :
    (entry = stop → positionSize entry stop = 0) ∧
    (entry ≠ stop →
      positionSize entry stop = ⌊(100000 * (5 / 1000)) / |entry - stop|⌋ ∧
      positionSize entry stop = ⌊500 / |entry - stop|⌋ ∧
      0 ≤ positionSize entry stop) := by
  constructor
  · intro h
    simp [positionSize, h]
  · intro h
    have hpos : 0 < |entry - stop| := abs_pos.mpr (sub_ne_zero.mpr h)
    have hfloor : (0 : ℤ) ≤ ⌊(500 : ℚ) / |entry - stop|⌋ :=
      Int.floor_nonneg.mpr (div_nonneg (by norm_num) hpos.le)
    have h500 : ((100000 : ℚ) * (5 / 1000)) = 500 := by norm_num
    have hval : positionSize entry stop = ⌊(500 : ℚ) / |entry - stop|⌋ := by
      unfold positionSize
      simp only [ACCOUNT_SIZE, RISK_PER_TRADE_PCT]
      rw [if_neg hpos.ne', h500]
      exact max_eq_right hfloor
    refine ⟨?_, hval, ?_⟩
    · rw [h500]; exact hval
    · rw [hval]; exact hfloor

/-- Witness of C13: `positionSize 100 98 = 250` and `positionSize 100 100 = 0`. -/
theorem positionSize_spec_witness :
    positionSize 100 98 = 250 ∧ positionSize 100 100 = 0 ∧
    positionSize 100 98 = ⌊(500 : ℚ) / |100 - 98|⌋ :=
  ⟨by decide!, (positionSize_spec 100 100).1 rfl,
    ((positionSize_spec 100 98).2 (by decide!)).2.1⟩

/-- Every decision that is a trade sizes it with `positionSize` and charges the
commission on entry price times quantity. -/
theorem evaluate_trade_sizing (last : Bar) (lastSuper prevSuper : SuperState)
    (sma50 : Option ℚ) (t : Trade)
    (h : evaluate last lastSuper prevSuper sma50 = Result.trade t) :
    t.quantity = positionSize t.entryPrice t.stopLoss ∧
    t.commission = t.entryPrice * (t.quantity : ℚ) * COMMISSION_PER_TRADE := by
  unfold evaluate at h
  simp only at h
  split at h
  · cases h
    exact ⟨rfl, rfl⟩
  · split at h
    · cases h
      exact ⟨rfl, rfl⟩
    · cases h

/-- C14. Whenever `analyzeStock` returns `BUY_PENDING` or `SELL_PENDING`, the result has
`quantity = positionSize(entryPrice, stopLoss)` and
`commission = entryPrice * quantity * 0.0005`. -/
theorem analyzeStock_sizing (df : List Bar)
    (h : (analyzeStock df).signal = "BUY_PENDING" ∨ (analyzeStock df).signal = "SELL_PENDING") :
    ∃ t, analyzeStock df = Result.trade t ∧
      t.quantity = positionSize t.entryPrice t.stopLoss ∧
      t.commission = t.entryPrice * (t.quantity : ℚ) * (5 / 10000) := by
  cases hr : analyzeStock df with
  | noData => rw [hr] at h; simp [Result.signal] at h
  | noTrade => rw [hr] at h; simp [Result.signal] at h
  | trade t =>
    refine ⟨t, rfl, ?_⟩
    rcases analyzeStock_cases df with hno | ⟨l, p, s, -, -, -, -, he⟩
    · rw [hno] at hr; cases hr
    · rw [he] at hr
      exact evaluate_trade_sizing _ _ _ _ t hr

/-- Witness of C14 on `sellSeries` (quantity 30), with the spec's figures: entry 100 and
stop 98 give quantity 250 and commission 12.5. -/
theorem analyzeStock_sizing_witness :
    (∃ t, analyzeStock sellSeries = Result.trade t ∧
      t.quantity = positionSize t.entryPrice t.stopLoss ∧
      t.commission = t.entryPrice * (t.quantity : ℚ) * (5 / 10000)) ∧
    positionSize 100 98 = 250 ∧ (100 : ℚ) * 250 * COMMISSION_PER_TRADE = 25 / 2 :=
  ⟨analyzeStock_sizing sellSeries (Or.inr (by decide!)), by decide!, by decide!⟩

/-! ## Building the bar series -/

/-- C15, as stated, fails: a row whose `open` does not parse (`"abc"`) while `high`, `low`
and `close` do is kept, so the series holds a bar with a non-finite `open`. -/
theorem buildSeries_counterexample :
    ¬ ∀ (rows : List ParsedRow) (r : ParsedRow),
      r ∈ buildSeries rows ↔ r ∈ rows ∧ allFinite r := by
  intro h
  have hmem : (⟨none, some 2, some 1, some 1⟩ : ParsedRow)
      ∈ buildSeries [⟨none, some 2, some 1, some 1⟩] := by decide
  have := ((h _ _).mp hmem).2.1
  simp at this

/-- C15, amended. The series that `executeAnalysis` builds keeps a row if and only if its
`close`, `high` and `low` parse to finite numbers (`open` is not tested), in the order of
the input; so it contains no bar whose `high`, `low` or `close` is not a finite number. -/
theorem buildSeries_spec (rows : List ParsedRow) :
    (∀ r, r ∈ buildSeries rows ↔
      r ∈ rows ∧ r.close.isSome = true ∧ r.high.isSome = true ∧ r.low.isSome = true) ∧
    List.Sublist (buildSeries rows) rows ∧
    (∀ r, r ∈ buildSeries rows → ∃ h l c, r.high = some h ∧ r.low = some l ∧ r.close = some c) := by
  have hmem : ∀ r, r ∈ buildSeries rows ↔
      r ∈ rows ∧ r.close.isSome = true ∧ r.high.isSome = true ∧ r.low.isSome = true := by
    intro r
    simp [buildSeries, keepRow, List.mem_filter, and_assoc]
  refine ⟨hmem, List.filter_sublist rows, ?_⟩
  intro r hr
  obtain ⟨-, hc, hh, hl⟩ := (hmem r).mp hr
  exact ⟨_, _, _, (Option.isSome_iff_exists.mp hh).choose_spec,
    (Option.isSome_iff_exists.mp hl).choose_spec, (Option.isSome_iff_exists.mp hc).choose_spec⟩

/-- Witness of the amended C15: of a row with an unparsable `open`, a complete row and a
row with an unparsable `close`, the first two are kept. -/
theorem buildSeries_spec_witness :
    buildSeries [⟨none, some 2, some 1, some 1⟩, ⟨some 1, some 2, some 1, some 1⟩,
        ⟨some 1, some 2, some 1, none⟩]
      = [⟨none, some 2, some 1, some 1⟩, ⟨some 1, some 2, some 1, some 1⟩] ∧
    ((⟨none, some 2, some 1, some 1⟩ : ParsedRow) ∈ buildSeries [⟨none, some 2, some 1, some 1⟩,
        ⟨some 1, some 2, some 1, some 1⟩, ⟨some 1, some 2, some 1, none⟩]) :=
  ⟨by decide, ((buildSeries_spec _).1 _).mpr ⟨by decide, rfl, rfl, rfl⟩⟩

/-! ## The alert filter -/

/-- A character that folds onto an upper-case ASCII letter is a word character. -/
theorem isWordChar_of_upperCode (c : Char) (n : ℕ) (h : upperCode c = n) (h1 : 65 ≤ n)
    (h2 : n ≤ 90) : isWordChar c = true := by
  unfold upperCode at h
  unfold isWordChar
  simp only [decide_eq_true_eq]
  split at h <;> omega

/-- What `matchLiteral` consumes spells `word`, ignoring case; the character it reports
is the last one consumed. -/
theorem matchLiteral_sound (w : List Char) (prev : Option Char) (cs : List Char)
    (last : Option Char) (rest : List Char) (h : matchLiteral w prev cs = some (last, rest)) :
    ∃ mid, cs = mid ++ rest ∧ mid.map upperCode = w.map Char.toNat ∧
      ((mid = [] ∧ last = prev) ∨ ∃ c, last = some c ∧ mid.getLast? = some c) := by
  induction w generalizing prev cs with
  | nil =>
    simp only [matchLiteral, Option.some.injEq, Prod.mk.injEq] at h
    exact ⟨[], by simp [h.2], rfl, Or.inl ⟨rfl, h.1.symm⟩⟩
  | cons x ws ih =>
    cases cs with
    | nil => simp [matchLiteral] at h
    | cons c cs' =>
      simp only [matchLiteral] at h
      by_cases hc : upperCode c = x.toNat
      · rw [if_pos hc] at h
        obtain ⟨mid, hcs, hmap, hlast⟩ := ih (some c) cs' h
        refine ⟨c :: mid, by simp [hcs], by simp [hc, hmap], Or.inr ?_⟩
        rcases hlast with ⟨hnil, hl⟩ | ⟨d, hl, hd⟩
        · exact ⟨c, hl, by simp [hnil]⟩
        · refine ⟨d, hl, ?_⟩
          cases mid with
          | nil => simp at hd
          | cons e es => rw [List.getLast?_cons_cons]; exact hd
      · rw [if_neg hc] at h
        cases h

/-- An input that starts with a spelling of `word` is consumed by `matchLiteral`. -/
theorem matchLiteral_complete (w : List Char) (prev : Option Char) (mid rest : List Char)
    (h : mid.map upperCode = w.map Char.toNat) :
    ∃ last, matchLiteral w prev (mid ++ rest) = some (last, rest) ∧
      ((mid = [] ∧ last = prev) ∨ ∃ c, last = some c ∧ mid.getLast? = some c) := by
  induction w generalizing prev mid with
  | nil =>
    have hmid : mid = [] := by simpa using h
    subst hmid
    exact ⟨prev, by simp [matchLiteral], Or.inl ⟨rfl, rfl⟩⟩
  | cons x ws ih =>
    cases mid with
    | nil => simp at h
    | cons c mid' =>
      simp only [List.map_cons, List.cons.injEq] at h
      obtain ⟨last, hm, hlast⟩ := ih (some c) mid' h.2
      refine ⟨last, by simp [matchLiteral, h.1, hm], Or.inr ?_⟩
      rcases hlast with ⟨hnil, hl⟩ | ⟨d, hl, hd⟩
      · exact ⟨c, hl, by simp [hnil]⟩
      · refine ⟨d, hl, ?_⟩
        cases mid' with
        | nil => simp at hd
        | cons e es => rw [List.getLast?_cons_cons]; exact hd

/-- The last character of a spelling of a word that ends in an upper-case ASCII letter is
a word character. -/
theorem isWord_getLast_of_spelling (w mid : List Char) (c : Char) (n : ℕ)
    (h : mid.map upperCode = w.map Char.toNat) (hn : (w.map Char.toNat).getLast? = some n)
    (h1 : 65 ≤ n) (h2 : n ≤ 90) (hc : mid.getLast? = some c) : isWordChar c = true := by
  have : (mid.map upperCode).getLast? = some (upperCode c) := by
    rw [List.getLast?_map, hc]; rfl
  rw [h, hn] at this
  exact isWordChar_of_upperCode c n (Option.some.inj this).symm h1 h2

/-- The first character of a spelling of a word that starts with an upper-case ASCII letter
is a word character. -/
theorem isWord_head_of_spelling (w mid rest : List Char) (n : ℕ)
    (h : mid.map upperCode = w.map Char.toNat) (hn : (w.map Char.toNat).head? = some n)
    (h1 : 65 ≤ n) (h2 : n ≤ 90) : isWord (mid ++ rest).head? = true := by
  cases mid with
  | nil =>
    rw [List.map_nil] at h
    rw [← h] at hn
    simp at hn
  | cons c mid' =>
    have : (List.map upperCode (c :: mid')).head? = some (upperCode c) := rfl
    rw [h, hn] at this
    exact isWordChar_of_upperCode c n (Option.some.inj this).symm h1 h2

/-- `matchWord` succeeds exactly on a spelling of the word that is not followed by a word
character (for a word of upper-case ASCII letters). -/
theorem matchWord_iff (w : List Char) (prev : Option Char) (cs : List Char) (n : ℕ)
    (hn : (w.map Char.toNat).getLast? = some n) (h1 : 65 ≤ n) (h2 : n ≤ 90) :
    matchWord w prev cs = true ↔
      ∃ mid rest, cs = mid ++ rest ∧ mid.map upperCode = w.map Char.toNat ∧
        isWord rest.head? = false := by
  have hne : ∀ mid : List Char, mid.map upperCode = w.map Char.toNat → mid ≠ [] := by
    intro mid hm hnil
    rw [hnil, List.map_nil] at hm
    rw [← hm] at hn
    simp at hn
  constructor
  · intro h
    unfold matchWord at h
    cases hm : matchLiteral w prev cs with
    | none => rw [hm] at h; cases h
    | some pr =>
      obtain ⟨last, rest⟩ := pr
      rw [hm] at h
      obtain ⟨mid, hcs, hmap, hlast⟩ := matchLiteral_sound w prev cs last rest hm
      refine ⟨mid, rest, hcs, hmap, ?_⟩
      rcases hlast with ⟨hnil, -⟩ | ⟨c, hl, hc⟩
      · exact absurd hnil (hne mid hmap)
      · have hw : isWord (some c) = true :=
          isWord_getLast_of_spelling w mid c n hmap hn h1 h2 hc
        subst hl
        simp only [wordBoundary, hw] at h
        cases hr : isWord rest.head? with
        | false => rfl
        | true => rw [hr] at h; simp at h
  · rintro ⟨mid, rest, hcs, hmap, hrest⟩
    obtain ⟨last, hm, hlast⟩ := matchLiteral_complete w prev mid rest hmap
    unfold matchWord
    rw [hcs, hm]
    rcases hlast with ⟨hnil, -⟩ | ⟨c, hl, hc⟩
    · exact absurd hnil (hne mid hmap)
    · have hw : isWord (some c) = true :=
        isWord_getLast_of_spelling w mid c n hmap hn h1 h2 hc
      subst hl
      simp [wordBoundary, hw, hrest]

/-- The pattern matches at the current position exactly when a spelling of `BUY` or `SELL`
starts there, with no word character right before or right after it. -/
theorem matchHere_iff (prev : Option Char) (cs : List Char) :
    matchHere prev cs = true ↔
      isWord prev = false ∧ ∃ mid rest, cs = mid ++ rest ∧
        (mid.map upperCode = ['B', 'U', 'Y'].map Char.toNat ∨
         mid.map upperCode = ['S', 'E', 'L', 'L'].map Char.toNat) ∧
        isWord rest.head? = false := by
  have hB := matchWord_iff ['B', 'U', 'Y'] prev cs 89 (by decide) (by decide) (by decide)
  have hS := matchWord_iff ['S', 'E', 'L', 'L'] prev cs 76 (by decide) (by decide) (by decide)
  have hhead : ∀ mid rest : List Char,
      (mid.map upperCode = ['B', 'U', 'Y'].map Char.toNat ∨
        mid.map upperCode = ['S', 'E', 'L', 'L'].map Char.toNat) →
      isWord (mid ++ rest).head? = true := by
    intro mid rest h
    rcases h with h | h
    · exact isWord_head_of_spelling _ mid rest 66 h (by decide) (by decide) (by decide)
    · exact isWord_head_of_spelling _ mid rest 83 h (by decide) (by decide) (by decide)
  unfold matchHere
  rw [Bool.and_eq_true, Bool.or_eq_true, hB, hS]
  constructor
  · rintro ⟨hb, hm⟩
    have hex : ∃ mid rest, cs = mid ++ rest ∧
        (mid.map upperCode = ['B', 'U', 'Y'].map Char.toNat ∨
         mid.map upperCode = ['S', 'E', 'L', 'L'].map Char.toNat) ∧
        isWord rest.head? = false := by
      rcases hm with ⟨mid, rest, h1, h2, h3⟩ | ⟨mid, rest, h1, h2, h3⟩
      · exact ⟨mid, rest, h1, Or.inl h2, h3⟩
      · exact ⟨mid, rest, h1, Or.inr h2, h3⟩
    refine ⟨?_, hex⟩
    obtain ⟨mid, rest, h1, h2, -⟩ := hex
    have hh := hhead mid rest h2
    rw [← h1] at hh
    simp only [wordBoundary, hh] at hb
    cases hp : isWord prev with
    | false => rfl
    | true => rw [hp] at hb; simp at hb
  · rintro ⟨hp, mid, rest, h1, h2, h3⟩
    have hh := hhead mid rest h2
    rw [← h1] at hh
    refine ⟨by simp [wordBoundary, hp, hh], ?_⟩
    rcases h2 with h2 | h2
    · exact Or.inl ⟨mid, rest, h1, h2, h3⟩
    · exact Or.inr ⟨mid, rest, h1, h2, h3⟩

/-- The search succeeds exactly when `BUY` or `SELL` occurs, ignoring case, somewhere in
the rest of the input as a whole word; `done` is the part of the input already passed. -/
theorem regexTestFrom_iff (done cs : List Char) :
    regexTestFrom done.getLast? cs = true ↔
      ∃ pre mid post, cs = pre ++ mid ++ post ∧
        (mid.map upperCode = ['B', 'U', 'Y'].map Char.toNat ∨
         mid.map upperCode = ['S', 'E', 'L', 'L'].map Char.toNat) ∧
        isWord (done ++ pre).getLast? = false ∧ isWord post.head? = false := by
  induction cs generalizing done with
  | nil =>
    rw [regexTestFrom, matchHere_iff]
    constructor
    · rintro ⟨hp, mid, rest, h1, h2, h3⟩
      exact ⟨[], mid, rest, by simpa using h1, h2, by simpa using hp, h3⟩
    · rintro ⟨pre, mid, post, h1, h2, h3, h4⟩
      have hpre : pre = [] := by
        cases pre with
        | nil => rfl
        | cons a l => simp at h1
      subst hpre
      exact ⟨by simpa using h3, mid, post, by simpa using h1, h2, h4⟩
  | cons c rest ih =>
    rw [regexTestFrom, Bool.or_eq_true, matchHere_iff]
    have hlast : (done ++ [c]).getLast? = some c := by simp
    have ih2 := ih (done ++ [c])
    rw [hlast] at ih2
    rw [ih2]
    constructor
    · rintro (⟨hp, mid, post, h1, h2, h3⟩ | ⟨pre, mid, post, h1, h2, h3, h4⟩)
      · exact ⟨[], mid, post, by simpa using h1, h2, by simpa using hp, h3⟩
      · exact ⟨c :: pre, mid, post, by simp [h1], h2, by simpa using h3, h4⟩
    · rintro ⟨pre, mid, post, h1, h2, h3, h4⟩
      cases pre with
      | nil => exact Or.inl ⟨by simpa using h3, mid, post, by simpa using h1, h2, h4⟩
      | cons a pre' =>
        simp only [List.cons_append, List.cons.injEq] at h1
        obtain ⟨rfl, h1⟩ := h1
        exact Or.inr ⟨pre', mid, post, h1, h2, by simpa using h3, h4⟩

/-- C16, as stated, fails: `BUY_PENDING` and `SELL_PENDING` contain `BUY` and `SELL` as
substrings, but the pattern asks for a word boundary after them and `_` is a word
character, so the filter selects neither. -/
theorem selects_substring_counterexample :
    selects "BUY_PENDING" = false ∧ selects "SELL_PENDING" = false ∧
    ¬ ∀ signal : String, signal ≠ "" →
      (selects signal = true ↔
        occursIgnoreCase ['B', 'U', 'Y'] signal.toList ∨
        occursIgnoreCase ['S', 'E', 'L', 'L'] signal.toList) := by
  refine ⟨by decide, by decide, ?_⟩
  intro h
  have hsel : selects "BUY_PENDING" = true :=
    (h "BUY_PENDING" (by decide)).mpr
      (Or.inl ⟨[], ['B', 'U', 'Y'], ['_', 'P', 'E', 'N', 'D', 'I', 'N', 'G'], by decide,
        by decide⟩)
  revert hsel
  decide

/-- C16, amended. For every record with a non-empty string signal, the filter of
`checkAndNotify` selects it if and only if the signal contains `BUY` or `SELL`, ignoring
case, as a whole word: an occurrence neither preceded nor followed by a letter, a digit
or an underscore. -/
theorem selects_iff_whole_word (signal : String) (h : signal ≠ "") :
    selects signal = true ↔
      occursAsWord ['B', 'U', 'Y'] signal.toList ∨
      occursAsWord ['S', 'E', 'L', 'L'] signal.toList := by
  have key := regexTestFrom_iff [] signal.toList
  simp only [List.getLast?_nil, List.nil_append] at key
  unfold selects regexTest
  rw [Bool.and_eq_true, key]
  constructor
  · rintro ⟨-, pre, mid, post, h1, h2 | h2, h3, h4⟩
    · exact Or.inl ⟨pre, mid, post, h1, h2, h3, h4⟩
    · exact Or.inr ⟨pre, mid, post, h1, h2, h3, h4⟩
  · intro h'
    refine ⟨by simpa using h, ?_⟩
    rcases h' with ⟨pre, mid, post, h1, h2, h3, h4⟩ | ⟨pre, mid, post, h1, h2, h3, h4⟩
    · exact ⟨pre, mid, post, h1, Or.inl h2, h3, h4⟩
    · exact ⟨pre, mid, post, h1, Or.inr h2, h3, h4⟩

/-- Witness of the amended C16: `BUY` and `strong sell now` are selected, the first as
the theorem says from its whole-word occurrence. -/
theorem selects_iff_whole_word_witness :
    selects "strong sell now" = true ∧ selects "BUY" = true ∧
    (occursAsWord ['B', 'U', 'Y'] "strong sell now".toList ∨
      occursAsWord ['S', 'E', 'L', 'L'] "strong sell now".toList) :=
  ⟨by decide, (selects_iff_whole_word "BUY" (by decide)).mpr
      (Or.inl ⟨[], ['B', 'U', 'Y'], [], by decide, by decide, by decide, by decide⟩),
    (selects_iff_whole_word "strong sell now" (by decide)).mp (by decide)⟩

/-! ## Supertrend: states, bands and directions -/

/-- Where a state is computed, the loop variables take over its bands, value and
direction. -/
theorem superBody_prev_of_atr (df : List Bar) (atr : List (Option ℚ)) (m : ℚ) (i : ℕ)
    (c : Carry) (a : ℚ) (h : (superEntry df atr m i c).atr = some a) :
    (superBody df atr m i c).prevFinalUpper = (superEntry df atr m i c).upper ∧
    (superBody df atr m i c).prevFinalLower = (superEntry df atr m i c).lower ∧
    (superBody df atr m i c).prevSupertrend = (superEntry df atr m i c).supertrend ∧
    (superBody df atr m i c).prevDirection = (superEntry df atr m i c).direction := by
  obtain ⟨hg, ha⟩ := superEntry_atr df atr m i c a h
  unfold superBody superEntry
  rw [hg]
  simp [ha]

/-- Where the null state is pushed, the loop variables stay as they are. -/
theorem superBody_prev_of_not_atr (df : List Bar) (atr : List (Option ℚ)) (m : ℚ) (i : ℕ)
    (c : Carry) (h : (superEntry df atr m i c).atr = none) :
    (superBody df atr m i c).prevFinalUpper = c.prevFinalUpper ∧
    (superBody df atr m i c).prevFinalLower = c.prevFinalLower ∧
    (superBody df atr m i c).prevSupertrend = c.prevSupertrend ∧
    (superBody df atr m i c).prevDirection = c.prevDirection := by
  unfold superEntry at h
  unfold superBody
  cases hg : atr.getD i none with
  | none => exact ⟨rfl, rfl, rfl, rfl⟩
  | some b =>
    rw [hg] at h
    by_cases hb : b = 0
    · simp [hb]
    · simp [hb] at h

/-- The direction and the value are set together: both strings/numbers or both
`undefined`, never `null`. -/
theorem directionAt_cases (df : List Bar) (i : ℕ) (hl2 fu fl : ℚ) (ps : JSVal ℚ)
    (pd : JSVal Dir) :
    (∃ d v, directionAt df i hl2 fu fl ps pd = (.val d, .val v)) ∨
    directionAt df i hl2 fu fl ps pd = (.undefined, .undefined) := by
  unfold directionAt
  split
  · exact Or.inl ⟨_, _, rfl⟩
  · split
    · split
      · exact Or.inl ⟨_, _, rfl⟩
      · exact Or.inl ⟨_, _, rfl⟩
    · split
      · exact Or.inl ⟨_, _, rfl⟩
      · exact Or.inr rfl

/-- A computed state has a value that is not `null`, and a string direction only next to
a numeric value. -/
theorem superEntry_supertrend_ne_null (df : List Bar) (atr : List (Option ℚ)) (m : ℚ) (i : ℕ)
    (c : Carry) (a : ℚ) (h : (superEntry df atr m i c).atr = some a) :
    (superEntry df atr m i c).supertrend ≠ .null := by
  obtain ⟨hg, ha⟩ := superEntry_atr df atr m i c a h
  rw [superEntry_of_atr df atr m i c a hg ha]
  simp only
  rcases directionAt_cases df i (((bar df i).high + (bar df i).low) / 2)
      (finalUpperAt df i (((bar df i).high + (bar df i).low) / 2 + m * a) c.prevFinalUpper)
      (finalLowerAt df i (((bar df i).high + (bar df i).low) / 2 - m * a) c.prevFinalLower)
      c.prevSupertrend c.prevDirection with ⟨d, v, hd⟩ | hd
  · rw [hd]; simp
  · rw [hd]; simp

/-- While `prevSupertrend` is `null`, so is `prevDirection`. -/
theorem superLoop_direction_null (df : List Bar) (atr : List (Option ℚ)) (m : ℚ) (k : ℕ)
    (h : (superLoop df atr m k).prevSupertrend = .null) :
    (superLoop df atr m k).prevDirection = .null := by
  induction k with
  | zero => rfl
  | succ k ih =>
    rw [superLoop] at h ⊢
    cases ha : (superEntry df atr m k (superLoop df atr m k)).atr with
    | none =>
      obtain ⟨-, -, hs, hd⟩ := superBody_prev_of_not_atr df atr m k _ ha
      rw [hs] at h
      rw [hd]
      exact ih h
    | some a =>
      obtain ⟨-, -, hs, -⟩ := superBody_prev_of_atr df atr m k _ a ha
      rw [hs] at h
      exact absurd h (superEntry_supertrend_ne_null df atr m k _ a ha)

/-- Until a state is computed, the loop variables keep their initial value `null`. -/
theorem superLoop_null_of_all_null (df : List Bar) (atr : List (Option ℚ)) (m : ℚ) (k : ℕ)
    (h : ∀ j, j < k → (superEntry df atr m j (superLoop df atr m j)).atr = none) :
    (superLoop df atr m k).prevFinalUpper = none ∧
    (superLoop df atr m k).prevFinalLower = none ∧
    (superLoop df atr m k).prevSupertrend = .null := by
  induction k with
  | zero => exact ⟨rfl, rfl, rfl⟩
  | succ k ih =>
    obtain ⟨h1, h2, h3⟩ := ih (fun j hj => h j (Nat.lt_succ_of_lt hj))
    obtain ⟨e1, e2, e3, -⟩ := superBody_prev_of_not_atr df atr m k _ (h k (Nat.lt_succ_self k))
    rw [superLoop, e1, e2, e3]
    exact ⟨h1, h2, h3⟩

/-- An index with a state lies inside the series. -/
theorem lt_length_of_getElem? (df : List Bar) (p : ℕ) (m : ℚ) (i : ℕ) (s : SuperState)
    (h : (calculateSupertrend df p m)[i]? = some s) : i < df.length := by
  have := List.getElem?_eq_some_iff.mp h
  obtain ⟨hlt, -⟩ := this
  rw [calculateSupertrend_length] at hlt
  exact hlt

/-- The state at index `i` is the one pushed by iteration `i`. -/
theorem state_eq_superEntry (df : List Bar) (p : ℕ) (m : ℚ) (i : ℕ) (s : SuperState)
    (h : (calculateSupertrend df p m)[i]? = some s) :
    s = superEntry df (atrOf df p) m i (carryAt df p m i) := by
  have hi := lt_length_of_getElem? df p m i s h
  rw [calculateSupertrend_getElem? df p m i hi] at h
  exact (Option.some.inj h).symm

/-- A state with a non-null band was computed. -/
theorem superEntry_atr_of_upper (df : List Bar) (atr : List (Option ℚ)) (m : ℚ) (i : ℕ)
    (c : Carry) (u : ℚ) (h : (superEntry df atr m i c).upper = some u) :
    ∃ a, (superEntry df atr m i c).atr = some a := by
  cases ha : (superEntry df atr m i c).atr with
  | some a => exact ⟨a, rfl⟩
  | none =>
    rw [superEntry_of_not_atr df atr m i c ha] at h
    simp [nullState] at h

/-- A state with a non-null lower band was computed. -/
theorem superEntry_atr_of_lower (df : List Bar) (atr : List (Option ℚ)) (m : ℚ) (i : ℕ)
    (c : Carry) (l : ℚ) (h : (superEntry df atr m i c).lower = some l) :
    ∃ a, (superEntry df atr m i c).atr = some a := by
  cases ha : (superEntry df atr m i c).atr with
  | some a => exact ⟨a, rfl⟩
  | none =>
    rw [superEntry_of_not_atr df atr m i c ha] at h
    simp [nullState] at h

/-- The loop variables on entry to iteration `i + 1` come from iteration `i`. -/
theorem carryAt_succ (df : List Bar) (p : ℕ) (m : ℚ) (i : ℕ) :
    carryAt df p m (i + 1) = superBody df (atrOf df p) m i (carryAt df p m i) := rfl

/-- After a computed state at index `i`, the loop variables on entry to iteration `i + 1`
are that state's bands, value and direction. -/
theorem carryAt_succ_of_state (df : List Bar) (p : ℕ) (m : ℚ) (i : ℕ) (s : SuperState) (a : ℚ)
    (h : (calculateSupertrend df p m)[i]? = some s) (ha : s.atr = some a) :
    (carryAt df p m (i + 1)).prevFinalUpper = s.upper ∧
    (carryAt df p m (i + 1)).prevFinalLower = s.lower ∧
    (carryAt df p m (i + 1)).prevSupertrend = s.supertrend ∧
    (carryAt df p m (i + 1)).prevDirection = s.direction := by
  have hs := state_eq_superEntry df p m i s h
  rw [hs] at ha ⊢
  rw [carryAt_succ]
  exact superBody_prev_of_atr df _ m i _ a ha

/-- C17. For every bar series and ATR period `p ≥ 1`, `calculateSupertrend df p m` returns
one state per bar; the state at every index `i < p - 1` has `supertrend`, `direction`,
`atr`, `upper` and `lower` all `null`; and wherever the direction is `up` or `down` the
`atr` field is not null and equals the Wilder ATR of `df` at that index. -/
theorem calculateSupertrend_spec (df : List Bar) (p : ℕ) (m : ℚ) (hp : 1 ≤ p) :
    (calculateSupertrend df p m).length = df.length ∧
    (∀ i, i < df.length → i + 1 < p →
      (calculateSupertrend df p m)[i]?
        = some { supertrend := .null, direction := .null, atr := none, upper := none,
                 lower := none }) ∧
    (∀ (i : ℕ) (s : SuperState) (d : Dir),
      (calculateSupertrend df p m)[i]? = some s → s.direction = .val d →
      ∃ a, s.atr = some a ∧
        (calculateATRFromTR (calculateTRArray df) p)[i]? = some (some a)) := by
  refine ⟨calculateSupertrend_length df p m, ?_, ?_⟩
  · intro i hi hlt
    rw [calculateSupertrend_getElem? df p m i hi]
    have htr : i < (calculateTRArray df).length := by simp [calculateTRArray, hi]
    have hnone : (atrOf df p).getD i none = none := by
      unfold atrOf calculateATRFromTR
      rw [List.getD_eq_getElem?_getD, atrLoop_getElem? _ p _ i htr]
      unfold atrEntry
      rw [if_pos (by omega), if_neg (by omega)]
      rfl
    have hatr : (superEntry df (atrOf df p) m i (carryAt df p m i)).atr = none := by
      unfold superEntry
      rw [hnone]
      rfl
    rw [superEntry_of_not_atr df _ m i _ hatr]
    rfl
  · intro i s d hs hd
    have he := state_eq_superEntry df p m i s hs
    rw [he] at hd
    obtain ⟨a, ha⟩ := superEntry_atr_of_direction df _ m i _ d hd
    have hget := (superEntry_atr df _ m i _ a ha).1
    refine ⟨a, by rw [he]; exact ha, ?_⟩
    rw [List.getD_eq_getElem?_getD] at hget
    have hget2 : (atrOf df p)[i]?.getD none = some a := hget
    change (atrOf df p)[i]? = some (some a)
    cases hq : (atrOf df p)[i]? with
    | none => rw [hq] at hget2; simp at hget2
    | some v => rw [hq] at hget2; simpa using hget2

/-- Witness of C17 on `elevenBars` with period 10: eleven states, the null state at index
3, and at index 10 (direction `down`) the `atr` field `2`, the ATR at that index. -/
theorem calculateSupertrend_spec_witness :
    (calculateSupertrend elevenBars 10 3).length = elevenBars.length ∧
    (calculateSupertrend elevenBars 10 3)[3]?
      = some { supertrend := .null, direction := .null, atr := none, upper := none,
               lower := none } ∧
    (∃ a, ({ supertrend := .val 7, direction := .val Dir.down, atr := some 2,
             upper := some 7, lower := some (-5) } : SuperState).atr = some a ∧
      (calculateATRFromTR (calculateTRArray elevenBars) 10)[10]? = some (some a)) :=
  ⟨(calculateSupertrend_spec elevenBars 10 3 (by decide)).1,
    (calculateSupertrend_spec elevenBars 10 3 (by decide)).2.1 3 (by decide) (by decide),
    (calculateSupertrend_spec elevenBars 10 3 (by decide)).2.2 10 _ Dir.down (by decide!) rfl⟩

/-- C18. Band ratchet in `calculateSupertrend`: for two consecutive computed indices
`i - 1` and `i`, if `close[i-1] ≤ upper[i-1]` then `upper[i] ≤ upper[i-1]`, and if
`close[i-1] ≥ lower[i-1]` then `lower[i] ≥ lower[i-1]`; moreover `upper[i]` is
`hl2[i] + m * atr[i]` or `upper[i-1]`, and `lower[i]` is `hl2[i] - m * atr[i]` or
`lower[i-1]`. -/
theorem band_ratchet (df : List Bar) (p : ℕ) (m : ℚ) (i : ℕ) (sPrev sCur : SuperState)
    (uPrev lPrev uCur lCur a : ℚ) (hi : 0 < i)
    (hprev : (calculateSupertrend df p m)[i - 1]? = some sPrev)
    (hcur : (calculateSupertrend df p m)[i]? = some sCur)
    (hup : sPrev.upper = some uPrev) (hlp : sPrev.lower = some lPrev)
    (huc : sCur.upper = some uCur) (hlc : sCur.lower = some lCur) (ha : sCur.atr = some a) :
    ((bar df (i - 1)).close ≤ uPrev → uCur ≤ uPrev) ∧
    ((bar df (i - 1)).close ≥ lPrev → lCur ≥ lPrev) ∧
    (uCur = ((bar df i).high + (bar df i).low) / 2 + m * a ∨ uCur = uPrev) ∧
    (lCur = ((bar df i).high + (bar df i).low) / 2 - m * a ∨ lCur = lPrev) := by
  obtain ⟨k, rfl⟩ : ∃ k, i = k + 1 := ⟨i - 1, by omega⟩
  rw [Nat.add_sub_cancel] at hprev ⊢
  have hep := state_eq_superEntry df p m k sPrev hprev
  obtain ⟨a', ha'⟩ : ∃ a', sPrev.atr = some a' := by
    rw [hep] at hup ⊢
    exact superEntry_atr_of_upper df _ m k _ uPrev hup
  obtain ⟨cu, cl, -, -⟩ := carryAt_succ_of_state df p m k sPrev a' hprev ha'
  rw [hup] at cu
  rw [hlp] at cl
  have hec := state_eq_superEntry df p m (k + 1) sCur hcur
  rw [hec] at ha
  obtain ⟨hg, hne⟩ := superEntry_atr df _ m (k + 1) _ a ha
  rw [superEntry_of_atr df _ m (k + 1) _ a hg hne, cu, cl] at hec
  rw [hec] at huc hlc
  simp only [Option.some.injEq, finalUpperAt, finalLowerAt, Nat.add_sub_cancel] at huc hlc
  refine ⟨?_, ?_, ?_, ?_⟩
  · intro hle
    rw [← huc]
    split
    · rename_i h
      rcases h with h | h
      · exact h.le
      · exact absurd hle (not_le.mpr h)
    · exact le_refl _
  · intro hge
    rw [← hlc]
    split
    · rename_i h
      rcases h with h | h
      · exact h.le
      · exact absurd hge (not_le.mpr h)
    · exact le_refl _
  · rw [← huc]
    split
    · exact Or.inl rfl
    · exact Or.inr rfl
  · rw [← hlc]
    split
    · exact Or.inl rfl
    · exact Or.inr rfl

/-- Witness of C18 on `elevenBars` at the computed indices 9 and 10: the previous close
`1` lies between the bands `-5` and `7`, and both bands stay where they were. -/
theorem band_ratchet_witness :
    (bar elevenBars (10 - 1)).close ≤ 7 ∧ (bar elevenBars (10 - 1)).close ≥ -5 ∧
    (((bar elevenBars (10 - 1)).close ≤ 7 → (7 : ℚ) ≤ 7) ∧
    ((bar elevenBars (10 - 1)).close ≥ -5 → (-5 : ℚ) ≥ -5) ∧
    ((7 : ℚ) = ((bar elevenBars 10).high + (bar elevenBars 10).low) / 2 + 3 * 2
      ∨ (7 : ℚ) = 7) ∧
    ((-5 : ℚ) = ((bar elevenBars 10).high + (bar elevenBars 10).low) / 2 - 3 * 2
      ∨ (-5 : ℚ) = -5)) :=
  ⟨by decide!, by decide!,
    band_ratchet elevenBars 10 3 10
      { supertrend := .val 7, direction := .val Dir.down, atr := some 2,
        upper := some 7, lower := some (-5) }
      { supertrend := .val 7, direction := .val Dir.down, atr := some 2,
        upper := some 7, lower := some (-5) }
      7 (-5) 7 (-5) 2 (by decide) (by decide!) (by decide!) rfl rfl rfl rfl rfl⟩

/-- C19. In `calculateSupertrend`, at every computed index `i` on whose entry the previous
direction is `up`: if `close[i-1] ≤ finalUpper[i]` the state has direction `down` and
value `finalUpper[i]`, otherwise direction `up` and value `finalLower[i]`.  At the first
computed index the direction is `up` exactly when `close[i] > (high[i] + low[i]) / 2`,
and `down` otherwise, with value `finalLower[i]` if `up` and `finalUpper[i]` if `down`. -/
theorem direction_rule (df : List Bar) (p : ℕ) (m : ℚ) (i : ℕ) (s : SuperState) (U L : ℚ)
    (hs : (calculateSupertrend df p m)[i]? = some s)
    (hU : s.upper = some U) (hL : s.lower = some L) :
    ((carryAt df p m i).prevDirection = .val Dir.up →
      ((bar df (i - 1)).close ≤ U → s.direction = .val Dir.down ∧ s.supertrend = .val U) ∧
      (¬ (bar df (i - 1)).close ≤ U → s.direction = .val Dir.up ∧ s.supertrend = .val L)) ∧
    ((∀ j, j < i → (calculateSupertrend df p m)[j]? = some nullState) →
      (s.direction = .val Dir.up ↔ (bar df i).close > ((bar df i).high + (bar df i).low) / 2) ∧
      (s.direction = .val Dir.down ↔
        ¬ (bar df i).close > ((bar df i).high + (bar df i).low) / 2) ∧
      (s.direction = .val Dir.up → s.supertrend = .val L) ∧
      (s.direction = .val Dir.down → s.supertrend = .val U)) := by
  have he := state_eq_superEntry df p m i s hs
  obtain ⟨a, ha⟩ : ∃ a, s.atr = some a := by
    rw [he] at hU ⊢
    exact superEntry_atr_of_upper df _ m i _ U hU
  have ha2 := ha
  rw [he] at ha2
  obtain ⟨hg, hne⟩ := superEntry_atr df _ m i _ a ha2
  have hrec := superEntry_of_atr df _ m i (carryAt df p m i) a hg hne
  rw [← he] at hrec
  have hU2 := hU
  have hL2 := hL
  rw [hrec] at hU2 hL2
  simp only [Option.some.injEq] at hU2 hL2
  rw [hU2, hL2] at hrec
  constructor
  · intro hup
    have hnn : (carryAt df p m i).prevSupertrend ≠ .null := by
      intro hnull
      have := superLoop_direction_null df (atrOf df p) m i hnull
      unfold carryAt at hup
      rw [this] at hup
      cases hup
    constructor
    · intro hle
      rw [hrec]
      simp [directionAt, hnn, hup, hle]
    · intro hnle
      rw [hrec]
      simp [directionAt, hnn, hup, hnle]
  · intro hfirst
    have hnull : (carryAt df p m i).prevSupertrend = .null := by
      refine (superLoop_null_of_all_null df (atrOf df p) m i ?_).2.2
      intro j hj
      have hj2 := hfirst j hj
      have hje := state_eq_superEntry df p m j nullState hj2
      unfold carryAt at hje
      rw [← hje]
      rfl
    by_cases hc : (bar df i).close > ((bar df i).high + (bar df i).low) / 2
    · rw [hrec]
      simp [directionAt, hnull, hc]
    · rw [hrec]
      simp [directionAt, hnull, hc]

/-- Witness of C19 on `sellSeries`: index 49 is the first computed index, where the close
`102` is above the midpoint `101` and the direction is `up` with value the lower band; on
entry to index 50 the previous direction is `up` and the previous close `102` is not above
the final upper band `5327/50`, so the direction is `down` with value `5327/50`. -/
theorem direction_rule_witness :
    (({ supertrend := .val (5327 / 50), direction := .val Dir.down, atr := some (109 / 50),
        upper := some (5327 / 50), lower := some (502 / 5) } : SuperState).direction
        = .val Dir.down ∧
      ({ supertrend := .val (5327 / 50), direction := .val Dir.down, atr := some (109 / 50),
         upper := some (5327 / 50), lower := some (502 / 5) } : SuperState).supertrend
        = .val (5327 / 50)) ∧
    (({ supertrend := .val (502 / 5), direction := .val Dir.up, atr := some (1 / 5),
        upper := some (508 / 5), lower := some (502 / 5) } : SuperState).direction
        = .val Dir.up ↔
      (bar sellSeries 49).close > ((bar sellSeries 49).high + (bar sellSeries 49).low) / 2) :=
  ⟨((direction_rule sellSeries 10 3 50 _ (5327 / 50) (502 / 5) (by decide!) rfl rfl).1
      (by decide!)).1 (by decide!),
    ((direction_rule sellSeries 10 3 49 _ (508 / 5) (502 / 5) (by decide!) rfl rfl).2
      (by decide!)).1⟩

/-- C20. In `calculateSupertrend`, at every computed index `i` that is not the first
computed one, on whose entry the previous direction is not `up`, and with
`close[i-1] < finalLower[i]`: the state has `undefined` direction and value, while its
`atr`, `upper` and `lower` are set; and the `undefined` direction and value are the
previous ones on entry to index `i + 1`. -/
theorem undefined_state (df : List Bar) (p : ℕ) (m : ℚ) (i : ℕ) (s : SuperState) (L : ℚ)
    (hs : (calculateSupertrend df p m)[i]? = some s) (hL : s.lower = some L)
    (hnotfirst : (carryAt df p m i).prevSupertrend ≠ .null)
    (hnotup : (carryAt df p m i).prevDirection ≠ .val Dir.up)
    (hlt : (bar df (i - 1)).close < L) :
    s.direction = .undefined ∧ s.supertrend = .undefined ∧
    (∃ a, s.atr = some a ∧ a ≠ 0 ∧
      (calculateATRFromTR (calculateTRArray df) p).getD i none = some a) ∧
    (∃ U, s.upper = some U) ∧
    (carryAt df p m (i + 1)).prevDirection = .undefined ∧
    (carryAt df p m (i + 1)).prevSupertrend = .undefined := by
  have he := state_eq_superEntry df p m i s hs
  obtain ⟨a, ha⟩ : ∃ a, s.atr = some a := by
    rw [he] at hL ⊢
    exact superEntry_atr_of_lower df _ m i _ L hL
  have ha2 := ha
  rw [he] at ha2
  obtain ⟨hg, hne⟩ := superEntry_atr df _ m i _ a ha2
  have hrec := superEntry_of_atr df _ m i (carryAt df p m i) a hg hne
  rw [← he] at hrec
  have hL2 := hL
  rw [hrec] at hL2
  simp only [Option.some.injEq] at hL2
  rw [hL2] at hrec
  have hnlt : ¬ (bar df (i - 1)).close ≥ L := not_le.mpr hlt
  have hd : s.direction = .undefined := by
    rw [hrec]
    simp [directionAt, hnotfirst, hnotup, hnlt]
  have hv : s.supertrend = .undefined := by
    rw [hrec]
    simp [directionAt, hnotfirst, hnotup, hnlt]
  obtain ⟨-, -, cs, cd⟩ := carryAt_succ_of_state df p m i s a hs ha
  refine ⟨hd, hv, ⟨a, ha, hne, hg⟩, ⟨_, by rw [hrec]⟩, by rw [cd, hd], by rw [cs, hv]⟩

/-- Witness of C20 on `jumpSeries` at index 10: the previous direction is `down`, the
previous close `1` is below the final lower band `653/10`, and the state has no direction
and no value. -/
theorem undefined_state_witness :
    (calculateSupertrend jumpSeries 10 3)[10]?
      = some { supertrend := .undefined, direction := .undefined, atr := some (119 / 10),
               upper := some 7, lower := some (653 / 10) } ∧
    (carryAt jumpSeries 10 3 10).prevDirection = .val Dir.down ∧
    (carryAt jumpSeries 10 3 (10 + 1)).prevDirection = .undefined ∧
    (carryAt jumpSeries 10 3 (10 + 1)).prevSupertrend = .undefined :=
  ⟨by decide!, by decide!,
    (undefined_state jumpSeries 10 3 10
      { supertrend := .undefined, direction := .undefined, atr := some (119 / 10),
        upper := some 7, lower := some (653 / 10) } (653 / 10)
      (by decide!) rfl (by decide!) (by decide!) (by decide!)).2.2.2.2.1,
    (undefined_state jumpSeries 10 3 10
      { supertrend := .undefined, direction := .undefined, atr := some (119 / 10),
        upper := some 7, lower := some (653 / 10) } (653 / 10)
      (by decide!) rfl (by decide!) (by decide!) (by decide!)).2.2.2.2.2⟩

/-! ## Risk sizing -/

/-- For distinct prices `positionSize` is the floor of `500` over the risk per share. -/
theorem positionSize_eq_floor (entry stop : ℚ) (h : entry ≠ stop) :
    positionSize entry stop = ⌊(500 : ℚ) / |entry - stop|⌋ ∧ 0 ≤ positionSize entry stop := by
  have hpos : 0 < |entry - stop| := abs_pos.mpr (sub_ne_zero.mpr h)
  have hfloor : (0 : ℤ) ≤ ⌊(500 : ℚ) / |entry - stop|⌋ :=
    Int.floor_nonneg.mpr (div_nonneg (by norm_num) hpos.le)
  have hval : positionSize entry stop = ⌊(500 : ℚ) / |entry - stop|⌋ := by
    unfold positionSize
    simp only [ACCOUNT_SIZE, RISK_PER_TRADE_PCT]
    rw [if_neg hpos.ne', show ((100000 : ℚ) * (5 / 1000)) = 500 by norm_num]
    exact max_eq_right hfloor
  exact ⟨hval, hval ▸ hfloor⟩

/-- C23. For distinct entry and stop prices, `q = positionSize entry stop` satisfies
`q * |entry - stop| ≤ 500 < (q + 1) * |entry - stop|`, so the money at risk never exceeds
`500 = 0.5%` of the account of `100000` and `q` is the largest whole quantity with that
property; `positionSize` is symmetric in its arguments; and `q = 0` exactly when
`|entry - stop| > 500`. -/
theorem positionSize_risk (entry stop : ℚ) (h : entry ≠ stop) :
    ACCOUNT_SIZE * RISK_PER_TRADE_PCT = 500 ∧
    ((positionSize entry stop : ℤ) : ℚ) * |entry - stop| ≤ 500 ∧
    500 < (((positionSize entry stop : ℤ) : ℚ) + 1) * |entry - stop| ∧
    (∀ k : ℤ, (k : ℚ) * |entry - stop| ≤ 500 → k ≤ positionSize entry stop) ∧
    positionSize entry stop = positionSize stop entry ∧
    (positionSize entry stop = 0 ↔ |entry - stop| > 500) := by
  have hpos : 0 < |entry - stop| := abs_pos.mpr (sub_ne_zero.mpr h)
  obtain ⟨hval, hnn⟩ := positionSize_eq_floor entry stop h
  have hle : ((positionSize entry stop : ℤ) : ℚ) ≤ 500 / |entry - stop| := by
    rw [hval]; exact Int.floor_le _
  have hlt : 500 / |entry - stop| < ((positionSize entry stop : ℤ) : ℚ) + 1 := by
    rw [hval]; exact Int.lt_floor_add_one _
  have h1 : ((positionSize entry stop : ℤ) : ℚ) * |entry - stop| ≤ 500 :=
    (le_div_iff₀ hpos).mp hle
  have h2 : 500 < (((positionSize entry stop : ℤ) : ℚ) + 1) * |entry - stop| :=
    (div_lt_iff₀ hpos).mp hlt
  refine ⟨by norm_num [ACCOUNT_SIZE, RISK_PER_TRADE_PCT], h1, h2, ?_, ?_, ?_⟩
  · intro k hk
    rw [hval]
    exact Int.le_floor.mpr ((le_div_iff₀ hpos).mpr hk)
  · rw [hval, (positionSize_eq_floor stop entry (Ne.symm h)).1, abs_sub_comm]
  · constructor
    · intro h0
      rw [h0] at h2
      simpa using h2
    · intro hgt
      have hq : ((positionSize entry stop : ℤ) : ℚ) < 1 := by
        by_contra hge
        push_neg at hge
        have : |entry - stop| ≤ ((positionSize entry stop : ℤ) : ℚ) * |entry - stop| :=
          le_mul_of_one_le_left hpos.le hge
        linarith
      have : positionSize entry stop < 1 := by exact_mod_cast hq
      omega

/-- Witness of C23: `positionSize 100 98 = 250` risks exactly `500`, and
`positionSize 100 700 = 0` since the risk per share `600` exceeds `500`. -/
theorem positionSize_risk_witness :
    positionSize 100 98 = 250 ∧ positionSize 100 700 = 0 ∧
    ((positionSize 100 98 : ℤ) : ℚ) * |100 - 98| ≤ 500 ∧
    (positionSize 100 700 = 0 ↔ |(100 : ℚ) - 700| > 500) :=
  ⟨by decide!, by decide!, (positionSize_risk 100 98 (by decide!)).2.1,
    (positionSize_risk 100 700 (by decide!)).2.2.2.2.2⟩

/-! ## Sign of the ATR -/

/-- A True Range value is never negative (outside the array `num` reads `0`). -/
theorem num_calculateTRArray_nonneg (df : List Bar) (j : ℕ) :
    0 ≤ num (calculateTRArray df) j := by
  unfold num
  rw [List.getD_eq_getElem?_getD]
  by_cases hj : j < df.length
  · rw [calculateTRArray_getElem? df j hj]
    simp only [Option.getD_some]
    exact le_trans (abs_nonneg _) (le_trans (le_max_left _ _) (le_max_right _ _))
  · have hlen : (calculateTRArray df).length ≤ j := by
      simp [calculateTRArray]; omega
    rw [List.getElem?_eq_none hlen]
    simp

/-- With True Range values that are not negative, no ATR entry is negative. -/
theorem atrEntry_nonneg (tr : List ℚ) (p : ℕ) (hp : 1 ≤ p) (htr : ∀ j, 0 ≤ num tr j) (i : ℕ)
    (a : ℚ) (h : atrEntry tr p i (atrLoop tr p i) = some a) : 0 ≤ a := by
  have hpq : (0 : ℚ) < (p : ℚ) := by exact_mod_cast hp
  have hp1 : (0 : ℚ) ≤ (p : ℚ) - 1 := by
    have : (1 : ℚ) ≤ (p : ℚ) := by exact_mod_cast hp
    linarith
  induction i generalizing a with
  | zero =>
    unfold atrEntry at h
    by_cases h0 : 0 < p
    · rw [if_pos h0] at h
      by_cases h1 : ((0 : ℕ) : ℤ) = (p : ℤ) - 1
      · rw [if_pos h1] at h
        cases h
        exact div_nonneg (add_nonneg (le_of_eq rfl) (htr 0)) hpq.le
      · rw [if_neg h1] at h
        cases h
    · omega
  | succ k ih =>
    unfold atrEntry at h
    by_cases h0 : k + 1 < p
    · rw [if_pos h0] at h
      by_cases h1 : ((k + 1 : ℕ) : ℤ) = (p : ℤ) - 1
      · rw [if_pos h1] at h
        cases h
        rw [atrLoop_seed tr p (k + 1) (by omega)]
        refine div_nonneg (add_nonneg (List.sum_nonneg ?_) (htr _)) hpq.le
        intro x hx
        obtain ⟨j, -, rfl⟩ := List.mem_map.mp hx
        exact htr j
      · rw [if_neg h1] at h
        cases h
    · rw [if_neg h0] at h
      have hg : (atrLoop tr p (k + 1)).1.getD (k + 1 - 1) none
          = atrEntry tr p k (atrLoop tr p k) := by
        rw [List.getD_eq_getElem?_getD, Nat.add_sub_cancel,
          atrLoop_getElem? tr p (k + 1) k (by omega)]
        rfl
      rw [hg] at h
      cases hprev : atrEntry tr p k (atrLoop tr p k) with
      | none => rw [hprev] at h; cases h
      | some b =>
        rw [hprev] at h
        simp only [Option.some.injEq] at h
        rw [← h]
        exact div_nonneg (add_nonneg (mul_nonneg (ih b hprev) hp1) (htr _)) hpq.le

/-- With a period of at least 2, a positive ATR entry is followed by a positive one. -/
theorem atrEntry_pos_succ (tr : List ℚ) (p : ℕ) (hp : 2 ≤ p) (htr : ∀ j, 0 ≤ num tr j)
    (i : ℕ) (a : ℚ) (h : atrEntry tr p i (atrLoop tr p i) = some a) (ha : 0 < a) :
    ∃ b, atrEntry tr p (i + 1) (atrLoop tr p (i + 1)) = some b ∧ 0 < b := by
  have hpq : (0 : ℚ) < (p : ℚ) := by
    have : 0 < p := by omega
    exact_mod_cast this
  have hp1 : (0 : ℚ) < (p : ℚ) - 1 := by
    have : (2 : ℚ) ≤ (p : ℚ) := by exact_mod_cast hp
    linarith
  have hip : p ≤ i + 1 := by
    by_contra hlt
    unfold atrEntry at h
    rw [if_pos (by omega), if_neg (by omega)] at h
    cases h
  have hg : (atrLoop tr p (i + 1)).1.getD (i + 1 - 1) none = some a := by
    rw [List.getD_eq_getElem?_getD, Nat.add_sub_cancel,
      atrLoop_getElem? tr p (i + 1) i (by omega), h]
    rfl
  refine ⟨(a * ((p : ℚ) - 1) + num tr (i + 1)) / (p : ℚ), ?_, ?_⟩
  · unfold atrEntry
    rw [if_neg (by omega), hg]
  · exact div_pos (add_pos_of_pos_of_nonneg (mul_pos ha hp1) (htr _)) hpq

/-- With a period of at least 2, the ATR stays positive once it is. -/
theorem atrEntry_pos_of_le (tr : List ℚ) (p : ℕ) (hp : 2 ≤ p) (htr : ∀ j, 0 ≤ num tr j)
    (j k : ℕ) (hjk : j ≤ k) (a : ℚ) (h : atrEntry tr p j (atrLoop tr p j) = some a)
    (ha : 0 < a) :
    ∃ b, atrEntry tr p k (atrLoop tr p k) = some b ∧ 0 < b := by
  induction k with
  | zero =>
    have : j = 0 := by omega
    subst this
    exact ⟨a, h, ha⟩
  | succ k ih =>
    by_cases hj : j = k + 1
    · subst hj
      exact ⟨a, h, ha⟩
    · obtain ⟨b, hb, hbpos⟩ := ih (by omega)
      exact atrEntry_pos_succ tr p hp htr k b hb hbpos

/-- A truthy `atr[i]` read by `calculateSupertrend` is the entry written by iteration `i`
of the ATR loop, at an index inside the series. -/
theorem atrOf_getD (df : List Bar) (p i : ℕ) (a : ℚ)
    (h : (atrOf df p).getD i none = some a) :
    i < df.length ∧
    atrEntry (calculateTRArray df) p i (atrLoop (calculateTRArray df) p i) = some a := by
  have hlen : (calculateTRArray df).length = df.length := by simp [calculateTRArray]
  by_cases hi : i < df.length
  · refine ⟨hi, ?_⟩
    unfold atrOf calculateATRFromTR at h
    rw [List.getD_eq_getElem?_getD, atrLoop_getElem? _ p _ i (by omega)] at h
    exact h
  · exfalso
    unfold atrOf calculateATRFromTR at h
    rw [List.getD_eq_getElem?_getD,
      List.getElem?_eq_none (by rw [atrLoop_length]; omega)] at h
    simp at h

/-- The `atr` field of a computed Supertrend state is positive. -/
theorem superEntry_atr_pos (df : List Bar) (p : ℕ) (hp : 1 ≤ p) (m : ℚ) (i : ℕ) (c : Carry)
    (a : ℚ) (h : (superEntry df (atrOf df p) m i c).atr = some a) : 0 < a := by
  obtain ⟨hg, hne⟩ := superEntry_atr df _ m i c a h
  obtain ⟨-, he⟩ := atrOf_getD df p i a hg
  have hnn := atrEntry_nonneg (calculateTRArray df) p hp (num_calculateTRArray_nonneg df) i a he
  exact lt_of_le_of_ne hnn (Ne.symm hne)

/-- The stop of a short entry lies above the entry price when the ATR is positive, whether
it is the Supertrend value or the fallback. -/
theorem sell_stop_gt (v : JSVal ℚ) (entry a : ℚ) (ha : 0 < a) :
    entry < (match v with
      | .val s => if s = 0 ∨ s ≤ entry then entry + 3 / 2 * a else s
      | _ => entry + 3 / 2 * a) := by
  have hfb : entry < entry + 3 / 2 * a := by linarith
  cases v with
  | val s =>
    simp only
    by_cases hc : s = 0 ∨ s ≤ entry
    · rw [if_pos hc]; exact hfb
    · rw [if_neg hc]
      push_neg at hc
      exact hc.2
  | null => exact hfb
  | undefined => exact hfb

/-- C22. Whenever `analyzeStock` returns `SELL_PENDING`, the result has `atr > 0` and
`takeProfit < entryPrice < stopLoss`, and its quantity is a whole number that is not
negative: the stop is strictly on the losing side of the short entry, and the risk per
share `|entryPrice - stopLoss|`, by which the sizing divides, is not zero. -/
theorem analyzeStock_sell_sound (df : List Bar)
    (h : (analyzeStock df).signal = "SELL_PENDING") :
    ∃ t, analyzeStock df = Result.trade t ∧
      0 < t.atr ∧ t.takeProfit < t.entryPrice ∧ t.entryPrice < t.stopLoss ∧
      0 ≤ t.quantity ∧ |t.entryPrice - t.stopLoss| ≠ 0 ∧
      t.quantity = ⌊(500 : ℚ) / |t.entryPrice - t.stopLoss|⌋ := by
  rcases analyzeStock_cases df with hno | ⟨l, p, s, h50, hl, -, -, he⟩
  · rw [hno] at h
    exact absurd h (by simp [Result.signal])
  · rw [he] at h
    have hflip := evaluate_sell_flip _ _ _ _ h
    have hrec := evaluate_sell_eq _ _ _ _ h
    rw [calculateSupertrend_getElem? df _ _ _ (by omega)] at hl
    cases hl
    obtain ⟨a, ha⟩ := superEntry_atr_of_direction _ _ _ _ _ _ hflip.2
    have hapos : 0 < a := superEntry_atr_pos df SUPER_ATR_PERIOD (by decide) _ _ _ a ha
    refine ⟨_, he.trans hrec, ?_⟩
    simp only [ha, Option.getD_some]
    have hstop := sell_stop_gt
      (superEntry df (atrOf df SUPER_ATR_PERIOD) SUPER_MULTIPLIER (df.length - 1)
        (carryAt df SUPER_ATR_PERIOD SUPER_MULTIPLIER (df.length - 1))).supertrend
      (applySlippage (bar df (df.length - 1)).close Side.SELL) a hapos
    have hne := ne_of_lt hstop
    obtain ⟨hq, hqnn⟩ := positionSize_eq_floor _ _ hne
    exact ⟨hapos, by linarith, hstop, hqnn, abs_ne_zero.mpr (sub_ne_zero.mpr hne), hq⟩

/-- Witness of C22 on `sellSeries`: ATR `109/50`, take-profit `83397/1000` below the entry
`89937/1000` below the stop `5327/50`, quantity 30. -/
theorem analyzeStock_sell_sound_witness :
    analyzeStock sellSeries = Result.trade
      { trend := "DOWN", signal := "SELL_PENDING", entryPrice := 89937 / 1000,
        stopLoss := 5327 / 50, takeProfit := 83397 / 1000, quantity := 30,
        commission := 269811 / 200000, atr := 109 / 50 } ∧
    ∃ t, analyzeStock sellSeries = Result.trade t ∧
      0 < t.atr ∧ t.takeProfit < t.entryPrice ∧ t.entryPrice < t.stopLoss ∧
      0 ≤ t.quantity ∧ |t.entryPrice - t.stopLoss| ≠ 0 ∧
      t.quantity = ⌊(500 : ℚ) / |t.entryPrice - t.stopLoss|⌋ :=
  ⟨by decide!, analyzeStock_sell_sound sellSeries (by decide!)⟩

/-! ## Directions never turn up -/

/-- The direction `up` is assigned only at the first computed index or after a previous
direction `up`. -/
theorem directionAt_up (df : List Bar) (i : ℕ) (hl2 fu fl : ℚ) (ps : JSVal ℚ) (pd : JSVal Dir)
    (h : (directionAt df i hl2 fu fl ps pd).1 = .val Dir.up) :
    ps = .null ∨ pd = .val Dir.up := by
  by_cases h1 : ps = .null
  · exact Or.inl h1
  · by_cases h2 : pd = .val Dir.up
    · exact Or.inr h2
    · exfalso
      unfold directionAt at h
      rw [if_neg h1, if_neg h2] at h
      split at h <;> simp at h

/-- The direction of a computed state is `up` only if, on entry to its iteration, the
previous value is `null` or the previous direction is `up`. -/
theorem superEntry_up (df : List Bar) (atr : List (Option ℚ)) (m : ℚ) (i : ℕ) (c : Carry)
    (h : (superEntry df atr m i c).direction = .val Dir.up) :
    c.prevSupertrend = .null ∨ c.prevDirection = .val Dir.up := by
  obtain ⟨a, ha⟩ := superEntry_atr_of_direction df atr m i c Dir.up h
  obtain ⟨hg, hne⟩ := superEntry_atr df atr m i c a ha
  rw [superEntry_of_atr df atr m i c a hg hne] at h
  exact directionAt_up df i _ _ _ _ _ h

/-- Once a state has been computed, `prevSupertrend` is never `null` again. -/
theorem superLoop_ne_null_of_computed (df : List Bar) (atr : List (Option ℚ)) (m : ℚ)
    (j k : ℕ) (hjk : j < k) (a : ℚ)
    (h : (superEntry df atr m j (superLoop df atr m j)).atr = some a) :
    (superLoop df atr m k).prevSupertrend ≠ .null := by
  induction k with
  | zero => omega
  | succ k ih =>
    rw [superLoop]
    cases hk : (superEntry df atr m k (superLoop df atr m k)).atr with
    | some b =>
      rw [(superBody_prev_of_atr df atr m k _ b hk).2.2.1]
      exact superEntry_supertrend_ne_null df atr m k _ b hk
    | none =>
      rw [(superBody_prev_of_not_atr df atr m k _ hk).2.2.1]
      have hne : j ≠ k := by
        intro hjk2
        subst hjk2
        rw [h] at hk
        cases hk
      exact ih (by omega)

/-- If `prevSupertrend` is not `null`, some earlier state was computed. -/
theorem exists_computed_of_ne_null (df : List Bar) (atr : List (Option ℚ)) (m : ℚ) (k : ℕ)
    (h : (superLoop df atr m k).prevSupertrend ≠ .null) :
    ∃ j, j < k ∧ ∃ a, (superEntry df atr m j (superLoop df atr m j)).atr = some a := by
  by_contra hno
  push_neg at hno
  apply h
  refine (superLoop_null_of_all_null df atr m k ?_).2.2
  intro j hj
  cases hq : (superEntry df atr m j (superLoop df atr m j)).atr with
  | none => rfl
  | some a => exact absurd hq (hno j hj a)

/-- With a period of at least 2, every state after a computed one is computed. -/
theorem computed_of_computed_before (df : List Bar) (p : ℕ) (hp : 2 ≤ p) (m : ℚ) (j k : ℕ)
    (hjk : j ≤ k) (hk : k < df.length) (c c' : Carry) (a : ℚ)
    (h : (superEntry df (atrOf df p) m j c).atr = some a) :
    ∃ b, (superEntry df (atrOf df p) m k c').atr = some b := by
  have hapos := superEntry_atr_pos df p (by omega) m j c a h
  obtain ⟨hg, -⟩ := superEntry_atr df _ m j c a h
  obtain ⟨-, he⟩ := atrOf_getD df p j a hg
  obtain ⟨b, hb, hbpos⟩ := atrEntry_pos_of_le (calculateTRArray df) p hp
    (num_calculateTRArray_nonneg df) j k hjk a he hapos
  have hlen : (calculateTRArray df).length = df.length := by simp [calculateTRArray]
  have hgk : (atrOf df p).getD k none = some b := by
    unfold atrOf calculateATRFromTR
    rw [List.getD_eq_getElem?_getD, atrLoop_getElem? _ p _ k (by omega), hb]
    rfl
  refine ⟨b, ?_⟩
  rw [superEntry_of_atr df _ m k c' b hgk hbpos.ne']

/-- After a state with direction `down` or `undefined`, the next state does not have
direction `up`. -/
theorem not_up_after_not_up (df : List Bar) (p : ℕ) (m : ℚ) (k : ℕ) (sPrev s : SuperState)
    (hprev : (calculateSupertrend df p m)[k]? = some sPrev)
    (hcur : (calculateSupertrend df p m)[k + 1]? = some s)
    (hd : sPrev.direction = .val Dir.down ∨ sPrev.direction = .undefined) :
    s.direction ≠ .val Dir.up := by
  intro hup
  have hep := state_eq_superEntry df p m k sPrev hprev
  obtain ⟨a, ha⟩ : ∃ a, sPrev.atr = some a := by
    cases hq : sPrev.atr with
    | some a => exact ⟨a, rfl⟩
    | none =>
      exfalso
      rw [hep] at hq
      rw [hep, superEntry_of_not_atr df _ m k _ hq] at hd
      rcases hd with hd | hd <;> simp [nullState] at hd
  obtain ⟨-, -, cs, cd⟩ := carryAt_succ_of_state df p m k sPrev a hprev ha
  have hsn : sPrev.supertrend ≠ .null := by
    rw [hep] at ha ⊢
    exact superEntry_supertrend_ne_null df _ m k _ a ha
  have hec := state_eq_superEntry df p m (k + 1) s hcur
  rw [hec] at hup
  rcases superEntry_up df _ m (k + 1) _ hup with h1 | h1
  · rw [cs] at h1
    exact hsn h1
  · rw [cd] at h1
    rcases hd with hd | hd <;> rw [hd] at h1 <;> cases h1

/-- A decision with signal `BUY_PENDING` comes from a flip from `down` to `up`. -/
theorem evaluate_buy_flip (last : Bar) (lastSuper prevSuper : SuperState) (sma50 : Option ℚ)
    (h : (evaluate last lastSuper prevSuper sma50).signal = "BUY_PENDING") :
    prevSuper.direction = .val Dir.down ∧ lastSuper.direction = .val Dir.up := by
  unfold evaluate at h
  simp only at h
  split at h
  · rename_i hup
    exact hup.1
  · split at h
    · exact absurd h (by simp [Result.signal])
    · exact absurd h (by simp [Result.signal])

/-- With a period of at least 2, a state with direction `up` is the first computed one or
follows a state with direction `up`. -/
theorem up_first_or_after_up (df : List Bar) (p : ℕ) (hp : 2 ≤ p) (m : ℚ) (i : ℕ)
    (s : SuperState) (hs : (calculateSupertrend df p m)[i]? = some s)
    (hup : s.direction = .val Dir.up) :
    (∀ j, j < i → (calculateSupertrend df p m)[j]? = some nullState) ∨
    (0 < i ∧ ∃ sPrev, (calculateSupertrend df p m)[i - 1]? = some sPrev ∧
      sPrev.direction = .val Dir.up) := by
  have hi := lt_length_of_getElem? df p m i s hs
  have he := state_eq_superEntry df p m i s hs
  rw [he] at hup
  rcases superEntry_up df _ m i _ hup with hnull | hprev
  · left
    intro j hj
    rw [calculateSupertrend_getElem? df p m j (by omega)]
    cases hq : (superEntry df (atrOf df p) m j (carryAt df p m j)).atr with
    | none => rw [superEntry_of_not_atr df _ m j _ hq]
    | some a =>
      exact absurd hnull (superLoop_ne_null_of_computed df (atrOf df p) m j i hj a hq)
  · right
    cases i with
    | zero => cases hprev
    | succ k =>
      refine ⟨Nat.succ_pos k, superEntry df (atrOf df p) m k (carryAt df p m k), ?_, ?_⟩
      · rw [Nat.add_sub_cancel]
        exact calculateSupertrend_getElem? df p m k (by omega)
      · rw [carryAt_succ] at hprev
        cases hq : (superEntry df (atrOf df p) m k (carryAt df p m k)).atr with
        | some b =>
          rw [(superBody_prev_of_atr df _ m k _ b hq).2.2.2] at hprev
          exact hprev
        | none =>
          exfalso
          rw [(superBody_prev_of_not_atr df _ m k _ hq).2.2.2] at hprev
          have hnn : (superLoop df (atrOf df p) m k).prevSupertrend ≠ .null := by
            intro hn
            have hdn := superLoop_direction_null df (atrOf df p) m k hn
            unfold carryAt at hprev
            rw [hdn] at hprev
            cases hprev
          obtain ⟨j, hj, a, ha⟩ := exists_computed_of_ne_null df (atrOf df p) m k hnn
          obtain ⟨b, hb⟩ := computed_of_computed_before df p hp m j k (by omega) (by omega)
            (superLoop df (atrOf df p) m j) (carryAt df p m k) a ha
          rw [hb] at hq
          cases hq

/-- C21. The directions produced by `calculateSupertrend` never go from `down` or
`undefined` to `up`: with a period of at least 2 (the engine's is 10), direction `up` at
index `i` implies that `i` is the first computed index or that the direction at `i - 1`
is `up`; there is no index with direction `down` (or `undefined`) at `i - 1` and `up` at
`i`; and `analyzeStock` never returns the signal `BUY_PENDING`. -/
theorem never_flips_to_up (df : List Bar) :
    (∀ (p : ℕ) (m : ℚ) (i : ℕ) (s : SuperState), 2 ≤ p →
      (calculateSupertrend df p m)[i]? = some s → s.direction = .val Dir.up →
      (∀ j, j < i → (calculateSupertrend df p m)[j]? = some nullState) ∨
      (0 < i ∧ ∃ sPrev, (calculateSupertrend df p m)[i - 1]? = some sPrev ∧
        sPrev.direction = .val Dir.up)) ∧
    (∀ (p : ℕ) (m : ℚ) (i : ℕ) (sPrev s : SuperState), 0 < i →
      (calculateSupertrend df p m)[i - 1]? = some sPrev →
      (calculateSupertrend df p m)[i]? = some s →
      (sPrev.direction = .val Dir.down ∨ sPrev.direction = .undefined) →
      s.direction ≠ .val Dir.up) ∧
    (analyzeStock df).signal ≠ "BUY_PENDING" := by
  refine ⟨fun p m i s hp hs hup => up_first_or_after_up df p hp m i s hs hup, ?_, ?_⟩
  · intro p m i sPrev s hi hprev hcur hd
    obtain ⟨k, rfl⟩ : ∃ k, i = k + 1 := ⟨i - 1, by omega⟩
    rw [Nat.add_sub_cancel] at hprev
    exact not_up_after_not_up df p m k sPrev s hprev hcur hd
  · intro hbuy
    rcases analyzeStock_cases df with hno | ⟨l, q, s, h50, hl, hq, -, he⟩
    · rw [hno] at hbuy
      exact absurd hbuy (by simp [Result.signal])
    · rw [he] at hbuy
      obtain ⟨hdown, hup⟩ := evaluate_buy_flip _ _ _ _ hbuy
      obtain ⟨k, hk⟩ : ∃ k, df.length - 1 = k + 1 := ⟨df.length - 1 - 1, by omega⟩
      rw [hk] at hl hq
      rw [Nat.add_sub_cancel] at hq
      exact not_up_after_not_up df _ _ k q l hq hl (Or.inl hdown) hup

/-- Witness of C21: in `sellSeries` the state at index 49 has direction `up` and is the
first computed one; in `dipSeries` the state at index 50 has direction `up` after `up` at
index 49; in `riseSeries` the direction is `down` at index 49 and not `up` at index 50,
and `analyzeStock` does not return `BUY_PENDING`. -/
theorem never_flips_to_up_witness :
    ((∀ j, j < 49 → (calculateSupertrend sellSeries 10 3)[j]? = some nullState) ∨
      (0 < 49 ∧ ∃ sPrev, (calculateSupertrend sellSeries 10 3)[49 - 1]? = some sPrev ∧
        sPrev.direction = .val Dir.up)) ∧
    ((∀ j, j < 50 → (calculateSupertrend dipSeries 10 3)[j]? = some nullState) ∨
      (0 < 50 ∧ ∃ sPrev, (calculateSupertrend dipSeries 10 3)[50 - 1]? = some sPrev ∧
        sPrev.direction = .val Dir.up)) ∧
    (calculateSupertrend dipSeries 10 3)[49]?
      = some { supertrend := .val (502 / 5), direction := .val Dir.up, atr := some (1 / 5),
               upper := some (508 / 5), lower := some (502 / 5) } ∧
    ({ supertrend := .val (506 / 5), direction := .val Dir.down, atr := some (19 / 25),
       upper := some (506 / 5), lower := some (2493 / 25) } : SuperState).direction
      ≠ .val Dir.up ∧
    (analyzeStock riseSeries).signal ≠ "BUY_PENDING" :=
  ⟨(never_flips_to_up sellSeries).1 10 3 49
      { supertrend := .val (502 / 5), direction := .val Dir.up, atr := some (1 / 5),
        upper := some (508 / 5), lower := some (502 / 5) } (by decide) (by decide!) rfl,
    (never_flips_to_up dipSeries).1 10 3 50
      { supertrend := .val (502 / 5), direction := .val Dir.up, atr := some (19 / 50),
        upper := some (5057 / 50), lower := some (502 / 5) } (by decide) (by decide!) rfl,
    by decide!,
    (never_flips_to_up riseSeries).2.1 10 3 50
      { supertrend := .val (506 / 5), direction := .val Dir.down, atr := some (2 / 5),
        upper := some (506 / 5), lower := some (494 / 5) }
      { supertrend := .val (506 / 5), direction := .val Dir.down, atr := some (19 / 25),
        upper := some (506 / 5), lower := some (2493 / 25) }
      (by decide) (by decide!) (by decide!) (Or.inl rfl),
    (never_flips_to_up riseSeries).2.2⟩

end Stratagy
